import Mathlib

/-! spritebuddy: palette quantizer and alpha-mask decision

A shallow embedding of `src/spritebuddy.c`.  Pixels are 32-bit words kept as
`Nat` and taken apart with the same shifts and masks as the C code; C `int`
arithmetic is `Int`; the `uint8_t` store `nearest = j` is `j % 256`; the
`uint32_t` row offset `y * w` is `(y * w) % 2 ^ 32`.  File and libpng
plumbing is represented only by what it hands to, or receives from, the
code under study.
-/

namespace SpriteBuddy

/-! ## Data model -/

/-- One palette entry, `png_color` of libpng: three byte-sized fields. -/
structure png_color where
  red : Nat
  green : Nat
  blue : Nat
  deriving DecidableEq, Repr

/-- The struct `Image32` of the source. -/
structure Image32 where
  w : Nat
  h : Nat
  hasAlphaChannel : Bool
  pixels : List Nat
  deriving DecidableEq, Repr

/-- The fields of a `png_color` are `png_byte`s. -/
def png_color.isByte (c : png_color) : Prop :=
  c.red < 256 ∧ c.green < 256 ∧ c.blue < 256

instance (c : png_color) : Decidable c.isByte := by
  unfold png_color.isByte; infer_instance

/-- The global `pal` between `0` and `pal_ncolors`, as `readPal` fills it:
every entry is a triple of bytes.  `pal_ncolors` is the length of the list. -/
def pal_wf (pal : List png_color) : Prop :=
  ∀ c ∈ pal, c.isByte

instance (pal : List png_color) : Decidable (pal_wf pal) := by
  unfold pal_wf; infer_instance

/-- An `Image32` as `readSourcePNG` builds it: the buffer obtained from
`malloc(width * height * 4)`, a 32-bit product, holds `w * h` pixels, which
it does exactly when that product does not wrap. -/
def Image32.wf (img : Image32) : Prop :=
  img.pixels.length = img.w * img.h ∧ img.w * img.h * 4 < 2 ^ 32

instance (img : Image32) : Decidable img.wf := by
  unfold Image32.wf; infer_instance

/-- Read of `buf[i]` from a pixel buffer. -/
def peek (buf : List Nat) (i : Nat) : Nat := buf.getD i 0

/-! ## Channel extraction (lines 235-238, 310, 333) -/

def chanR (color : Nat) : Nat := color &&& 0xff
def chanG (color : Nat) : Nat := (color >>> 8) &&& 0xff
def chanB (color : Nat) : Nat := (color >>> 16) &&& 0xff
def chanA (color : Nat) : Nat := (color >>> 24) &&& 0xff

/-! ## The palette search of `saveIndexedPNG` (lines 243-258) -/

/-- Read of `pal[j]`. -/
def palAt (pal : List png_color) (j : Nat) : png_color := pal.getD j ⟨0, 0, 0⟩

/-- The value of `dist_sq` computed for palette entry `j` (lines 249-252). -/
def dist_sq (pal : List png_color) (r g b : Nat) (j : Nat) : Int :=
  let rdist : Int := (r : Int) - ((palAt pal j).red : Int)
  let gdist : Int := (g : Int) - ((palAt pal j).green : Int)
  let bdist : Int := (b : Int) - ((palAt pal j).blue : Int)
  rdist * rdist + gdist * gdist + bdist * bdist

/-- One iteration of the `for (j ...)` loop on the pair
`(nearest_dist_sq, nearest)`; `nearest` is a `uint8_t`. -/
def searchStep (pal : List png_color) (r g b : Nat) (st : Int × Nat) (j : Nat) : Int × Nat :=
  if dist_sq pal r g b j < st.1 then (dist_sq pal r g b j, j % 256) else st

/-- Start of the search range: `screen->hasAlphaChannel ? 1 : 0`. -/
def searchLo (hasAlphaChannel : Bool) : Nat := if hasAlphaChannel then 1 else 0

/-- The whole loop `for (j = lo; j < pal_ncolors; j++)`, started from
`nearest_dist_sq = 9999999` and `nearest = 1`. -/
def searchLoop (pal : List png_color) (lo r g b : Nat) : Int × Nat :=
  (List.range' lo (pal.length - lo)).foldl (searchStep pal r g b) (9999999, 1)

/-- The body of the inner pixel loop of `saveIndexedPNG` (lines 231-259):
the value of `nearest` stored into `line` for the pixel word `color`. -/
def nearestIndex (pal : List png_color) (hasAlphaChannel : Bool) (color : Nat) : Nat :=
  let r := chanR color
  let g := chanG color
  let b := chanB color
  let a := chanA color
  if hasAlphaChannel && a == 0 then 0
  else (searchLoop pal (searchLo hasAlphaChannel) r g b).2

/-- The rows `saveIndexedPNG` hands to `png_write_row`, in order.  The state
of the outer loop is the `line` buffer (allocated once, `screen->w` bytes)
and the rows written so far; the inner loop stores at `line[i++]`. -/
def saveIndexedPNG (pal : List png_color) (screen : Image32) : List (List Nat) :=
  ((List.range screen.h).foldl
    (fun (st : List Nat × List (List Nat)) y =>
      let vram32 := (y * screen.w) % 2 ^ 32
      let line := ((List.range screen.w).foldl
        (fun (ln : List Nat × Nat) x =>
          let color := peek screen.pixels (vram32 + x)
          (ln.1.set ln.2 (nearestIndex pal screen.hasAlphaChannel color), ln.2 + 1))
        (st.1, 0)).1
      (line, st.2 ++ [line]))
    (List.replicate screen.w 0, [])).2

/-! ## `saveMask` (lines 304-314) -/

/-- The rows `saveMask` hands to `png_write_row`, in order. -/
def saveMask (screen : Image32) : List (List Nat) :=
  ((List.range screen.h).foldl
    (fun (st : List Nat × List (List Nat)) y =>
      let vram32 := (y * screen.w) % 2 ^ 32
      let line := ((List.range screen.w).foldl
        (fun (ln : List Nat × Nat) x =>
          let color := peek screen.pixels (vram32 + x)
          let a := chanA color
          (ln.1.set ln.2 a, ln.2 + 1))
        (st.1, 0)).1
      (line, st.2 ++ [line]))
    (List.replicate screen.w 0, [])).2

/-! ## `needsmask` (lines 325-341) -/

/-- The function `needsmask`: the first pixel whose alpha is neither 0 nor 255
returns true from inside the loops. -/
def needsmask (img : Image32) : Bool :=
  (List.range img.h).any fun y =>
    let color := (y * img.w) % 2 ^ 32
    (List.range img.w).any fun x =>
      let alpha := chanA (peek img.pixels (color + x))
      alpha != 0 && alpha != 255

/-! ## `readSourcePNG` (lines 98-191) -/

/-- Colour-type bits and values of libpng's `png.h`. -/
def PNG_COLOR_MASK_PALETTE : Nat := 1
def PNG_COLOR_MASK_COLOR : Nat := 2
def PNG_COLOR_MASK_ALPHA : Nat := 4
def PNG_COLOR_TYPE_GRAY : Nat := 0
def PNG_COLOR_TYPE_RGB : Nat := 2
def PNG_COLOR_TYPE_PALETTE : Nat := 3
def PNG_COLOR_TYPE_GRAY_ALPHA : Nat := 4
def PNG_COLOR_TYPE_RGB_ALPHA : Nat := 6

/-- The read transformations `readSourcePNG` asks libpng for. -/
inductive Transform where
  | strip_16
  | packing
  | palette_to_rgb
  | gray_to_rgb
  | expand_gray_1_2_4_to_8
  | tRNS_to_alpha
  | filler (byte : Nat)
  deriving DecidableEq, Repr

/-- What libpng reports about an opened source: the IHDR fields, whether
`png_get_valid(.., PNG_INFO_tRNS)` is non-zero, and the pixel words
`png_read_row` delivers under a given list of transformations. -/
structure PngSource where
  width : Nat
  height : Nat
  bit_depth : Nat
  color_type : Nat
  tRNS : Bool
  rows : List Transform → List Nat

/-- The transformations requested on lines 134-167, in order. -/
def readSourcePNG_transforms (src : PngSource) : List Transform :=
  [Transform.strip_16, Transform.packing]
  ++ (if src.color_type == PNG_COLOR_TYPE_PALETTE then [Transform.palette_to_rgb]
      else if src.color_type == PNG_COLOR_TYPE_GRAY || src.color_type == PNG_COLOR_TYPE_GRAY_ALPHA
      then [Transform.gray_to_rgb] else [])
  ++ (if src.color_type == PNG_COLOR_TYPE_GRAY && decide (src.bit_depth < 8)
      then [Transform.expand_gray_1_2_4_to_8] else [])
  ++ (if src.tRNS then [Transform.tRNS_to_alpha] else [])
  ++ [Transform.filler 0xff]

/-- The image `readSourcePNG` fills in on its successful path. -/
def readSourcePNG (src : PngSource) : Image32 :=
  { w := src.width
    h := src.height
    hasAlphaChannel := (src.color_type &&& PNG_COLOR_MASK_ALPHA) != 0
    pixels := src.rows (readSourcePNG_transforms src) }

/-! ## `main` (lines 343-404) -/

/-- The outside world of one run: what `readPal` loads from a path, what
libpng reports for the source at a path (`none`: the load fails), and
whether a write to a path succeeds.  A path is `argv[i]`; `none` is the null
pointer found at `argv[argc]`. -/
structure Env where
  palette : Option String → Option (List png_color)
  source : Option String → Option PngSource
  writable : Option String → Bool

/-- The calls `main` makes to the functions of the program. -/
inductive Call where
  | readPal (path : Option String)
  | readSourcePNG (path : Option String)
  | saveIndexedPNG (path : Option String)
  | needsmask
  | saveMask (path : Option String)
  deriving DecidableEq, Repr

/-- The outcome of a run: the exit status, the calls made in order, and the
rows written to each output path. -/
structure Run where
  status : Nat
  calls : List Call
  written : List (Option String × List (List Nat))
  deriving DecidableEq, Repr

/-- Read of `argv[i]`. -/
def argvAt (argv : List String) (i : Nat) : Option String := argv.get? i

/-- The function `main`, with `argc = argv.length`. -/
def main (argv : List String) (env : Env) : Run :=
  let argc := argv.length
  if argc != 4 && argc != 5 then ⟨1, [], []⟩
  else
    match env.palette (argvAt argv 1) with
    | none => ⟨1, [Call.readPal (argvAt argv 1)], []⟩
    | some pal =>
      match env.source (argvAt argv 2) with
      | none => ⟨1, [Call.readPal (argvAt argv 1), Call.readSourcePNG (argvAt argv 2)], []⟩
      | some src =>
        let img := readSourcePNG src
        let calls := [Call.readPal (argvAt argv 1), Call.readSourcePNG (argvAt argv 2),
          Call.saveIndexedPNG (argvAt argv 3)]
        if !env.writable (argvAt argv 3) then ⟨1, calls, []⟩
        else
          let written := [(argvAt argv 3, saveIndexedPNG pal img)]
          if img.hasAlphaChannel then
            if needsmask img then
              if !env.writable (argvAt argv 4) then
                ⟨1, calls ++ [Call.needsmask, Call.saveMask (argvAt argv 4)], written⟩
              else
                ⟨0, calls ++ [Call.needsmask, Call.saveMask (argvAt argv 4)],
                  written ++ [(argvAt argv 4, saveMask img)]⟩
            else ⟨0, calls ++ [Call.needsmask], written⟩
          else ⟨0, calls, written⟩

/-! ## Reading an emitted raster -/

/-- The sample at row `y`, column `x` of a list of written rows. -/
def sampleAt (rows : List (List Nat)) (y x : Nat) : Option Nat :=
  (rows.get? y).bind fun row => row.get? x

/-! ## Sample inputs -/

/-- The pixel word whose bytes, lowest first, are `r`, `g`, `b`, `a`. -/
def rgba (r g b a : Nat) : Nat := r + g * 2 ^ 8 + b * 2 ^ 16 + a * 2 ^ 24

def black : png_color := ⟨0, 0, 0⟩
def white : png_color := ⟨255, 255, 255⟩
def red : png_color := ⟨255, 0, 0⟩
def green : png_color := ⟨0, 255, 0⟩

/-- The palette of the end-to-end scenario. -/
def pal4 : List png_color := [black, red, green, white]

/-- The 2x1 source of the end-to-end scenario. -/
def scenario : Image32 := ⟨2, 1, true, [rgba 255 0 0 255, rgba 0 0 0 0]⟩

/-- A 1x1 image without alpha channel holding one solid pixel. -/
def solid1 (r g b : Nat) : Image32 := ⟨1, 1, false, [rgba r g b 255]⟩

/-- A palette of one colour, the smallest `pal_ncolors` allows. -/
def pal1 : List png_color := [black]

/-- A 1x1 image with an alpha channel holding one solid white pixel. -/
def solidAlpha1 : Image32 := ⟨1, 1, true, [rgba 255 255 255 255]⟩

/-- A palette in which entries 1 and 2 are the same colour. -/
def palDup : List png_color := [black, red, red, white]

/-- A 2x2 image with an alpha channel whose pixel at row 1, column 0 has
alpha 128. -/
def halfAlpha : Image32 :=
  ⟨2, 2, true, [rgba 255 0 0 255, rgba 0 0 0 0, rgba 1 2 3 128, rgba 9 9 9 255]⟩

/-- A 2x1 image recorded as having no alpha channel whose first pixel
nevertheless carries alpha 128. -/
def noChannel : Image32 := ⟨2, 1, false, [rgba 1 2 3 128, rgba 4 5 6 255]⟩

/-- An 8-bit truecolor-with-alpha source delivering the pixels of `halfAlpha`. -/
def rgbaSource : PngSource :=
  ⟨2, 2, 8, PNG_COLOR_TYPE_RGB_ALPHA, false, fun _ => halfAlpha.pixels⟩

/-- An 8-bit indexed source with a tRNS chunk: once tRNS is expanded the
first pixel has alpha 128 and the second alpha 0; without the expansion
both would get the filler byte. -/
def indexedTrns : PngSource :=
  ⟨2, 1, 8, PNG_COLOR_TYPE_PALETTE, true,
    fun ts => if Transform.tRNS_to_alpha ∈ ts then [rgba 255 0 0 128, rgba 0 0 0 0]
      else [rgba 255 0 0 255, rgba 0 0 0 255]⟩

/-- A world in which the palette file holds `pal4`, every source path opens
`src`, and a write succeeds exactly on a non-null path. -/
def world (src : PngSource) : Env :=
  ⟨fun _ => some pal4, fun _ => some src, fun p => p.isSome⟩

/-- A command line with the three required paths only. -/
def argv4 : List String := ["spritebuddy", "pal.png", "src.png", "out.png"]

/-- A command line with all four paths. -/
def argv5 : List String := ["spritebuddy", "pal.png", "src.png", "out.png", "mask.png"]

/-- A 1x1 image with an alpha channel holding one pixel of alpha 255. -/
def solidA (r g b : Nat) : Image32 := ⟨1, 1, true, [rgba r g b 255]⟩

/-- Four distinct colours, all at squared distance 3 from `(1, 1, 1)`. -/
def palEqui : List png_color := [⟨0, 0, 0⟩, ⟨0, 0, 2⟩, ⟨0, 2, 0⟩, ⟨2, 0, 0⟩]

/-- Two colours that differ in blue only. -/
def palBlue : List png_color := [⟨0, 0, 255⟩, ⟨0, 0, 0⟩]

/-- A palette whose entries 0 and 2 are both black. -/
def palBlack2 : List png_color := [black, red, black]

/-- The 2x2 image with an alpha channel rendered, at alpha 255, from the
indices 1, 3, 2, 1 of `pal4`. -/
def rendered : Image32 :=
  ⟨2, 2, true, [rgba 255 0 0 255, rgba 255 255 255 255, rgba 0 255 0 255, rgba 255 0 0 255]⟩

/-! ## Auxiliary facts -/

theorem chanR_lt (c : Nat) : chanR c < 256 :=
  Nat.lt_succ_of_le Nat.and_le_right

theorem chanG_lt (c : Nat) : chanG c < 256 :=
  Nat.lt_succ_of_le Nat.and_le_right

theorem chanB_lt (c : Nat) : chanB c < 256 :=
  Nat.lt_succ_of_le Nat.and_le_right

theorem chanA_lt (c : Nat) : chanA c < 256 :=
  Nat.lt_succ_of_le Nat.and_le_right

theorem palAt_isByte (pal : List png_color) (hp : pal_wf pal) (j : Nat) :
    (palAt pal j).isByte := by
  unfold palAt
  by_cases hj : j < pal.length
  · rw [List.getD_eq_getElem _ _ hj]
    exact hp _ (List.getElem_mem hj)
  · rw [List.getD_eq_default _ _ (Nat.le_of_not_lt hj)]
    decide

theorem sq_diff_le (x y : Nat) (hx : x < 256) (hy : y < 256) :
    ((x : Int) - (y : Int)) * ((x : Int) - (y : Int)) ≤ 65025 := by
  have h1 : (x : Int) - (y : Int) ≤ 255 := by omega
  have h2 : -255 ≤ (x : Int) - (y : Int) := by omega
  nlinarith

/-- No `dist_sq` exceeds `3 * 255 * 255`, far below the initial
`nearest_dist_sq` and below the range of a 32-bit `int`. -/
theorem dist_sq_le (pal : List png_color) (hp : pal_wf pal) (r g b j : Nat)
    (hr : r < 256) (hg : g < 256) (hb : b < 256) :
    dist_sq pal r g b j ≤ 195075 := by
  obtain ⟨h1, h2, h3⟩ := palAt_isByte pal hp j
  have a1 := sq_diff_le r _ hr h1
  have a2 := sq_diff_le g _ hg h2
  have a3 := sq_diff_le b _ hb h3
  unfold dist_sq
  simp only
  omega

theorem dist_sq_nonneg (pal : List png_color) (r g b j : Nat) :
    0 ≤ dist_sq pal r g b j := by
  unfold dist_sq
  simp only
  nlinarith [mul_self_nonneg ((r : Int) - ((palAt pal j).red : Int)),
    mul_self_nonneg ((g : Int) - ((palAt pal j).green : Int)),
    mul_self_nonneg ((b : Int) - ((palAt pal j).blue : Int))]

/-- Invariant of the search loop run over `[lo, lo + m)` from state `st`:
either nothing beat `st`, or the result is the first index of least
distance. -/
theorem search_fold (pal : List png_color) (r g b : Nat) :
    ∀ (m lo : Nat) (st : Int × Nat),
      ((List.range' lo m).foldl (searchStep pal r g b) st = st ∧
        ∀ j, lo ≤ j → j < lo + m → st.1 ≤ dist_sq pal r g b j) ∨
      (∃ k, lo ≤ k ∧ k < lo + m ∧
        (List.range' lo m).foldl (searchStep pal r g b) st = (dist_sq pal r g b k, k % 256) ∧
        dist_sq pal r g b k < st.1 ∧
        (∀ j, lo ≤ j → j < k → dist_sq pal r g b k < dist_sq pal r g b j) ∧
        (∀ j, k ≤ j → j < lo + m → dist_sq pal r g b k ≤ dist_sq pal r g b j)) := by
  intro m
  induction m with
  | zero =>
    intro lo st
    left
    refine ⟨rfl, ?_⟩
    intro j h1 h2
    omega
  | succ m ih =>
    intro lo st
    rw [List.range'_succ, List.foldl_cons]
    by_cases hlt : dist_sq pal r g b lo < st.1
    · have hs : searchStep pal r g b st lo = (dist_sq pal r g b lo, lo % 256) := by
        unfold searchStep
        rw [if_pos hlt]
      rw [hs]
      right
      rcases ih (lo + 1) (dist_sq pal r g b lo, lo % 256) with ⟨heq, hall⟩ | ⟨k, hk1, hk2, heq, hk3, hk4, hk5⟩
      · refine ⟨lo, Nat.le_refl _, by omega, heq, hlt, ?_, ?_⟩
        · intro j h1 h2
          omega
        · intro j h1 h2
          rcases Nat.eq_or_lt_of_le h1 with h | h
          · rw [h]
          · exact hall j h (by omega)
      · refine ⟨k, by omega, by omega, heq, lt_trans hk3 hlt, ?_, ?_⟩
        · intro j h1 h2
          rcases Nat.eq_or_lt_of_le h1 with h | h
          · rw [← h]
            exact hk3
          · exact hk4 j h h2
        · intro j h1 h2
          exact hk5 j h1 (by omega)
    · have hs : searchStep pal r g b st lo = st := by
        unfold searchStep
        rw [if_neg hlt]
      rw [hs]
      rcases ih (lo + 1) st with ⟨heq, hall⟩ | ⟨k, hk1, hk2, heq, hk3, hk4, hk5⟩
      · left
        refine ⟨heq, ?_⟩
        intro j h1 h2
        rcases Nat.eq_or_lt_of_le h1 with h | h
        · rw [← h]
          exact not_lt.mp hlt
        · exact hall j h (by omega)
      · right
        refine ⟨k, by omega, by omega, heq, hk3, ?_, ?_⟩
        · intro j h1 h2
          rcases Nat.eq_or_lt_of_le h1 with h | h
          · rw [← h]
            exact lt_of_lt_of_le hk3 (not_lt.mp hlt)
          · exact hk4 j h h2
        · intro j h1 h2
          exact hk5 j h1 (by omega)

/-- On a non-empty range over a palette of bytes the search ends on the
first index of least distance. -/
theorem searchLoop_spec (pal : List png_color) (hp : pal_wf pal) (lo r g b : Nat)
    (hr : r < 256) (hg : g < 256) (hb : b < 256) (hlo : lo < pal.length) :
    ∃ k, lo ≤ k ∧ k < pal.length ∧
      searchLoop pal lo r g b = (dist_sq pal r g b k, k % 256) ∧
      (∀ j, lo ≤ j → j < k → dist_sq pal r g b k < dist_sq pal r g b j) ∧
      (∀ j, k ≤ j → j < pal.length → dist_sq pal r g b k ≤ dist_sq pal r g b j) := by
  have hsum : lo + (pal.length - lo) = pal.length := by omega
  rcases search_fold pal r g b (pal.length - lo) lo (9999999, 1) with
    ⟨_, hall⟩ | ⟨k, hk1, hk2, heq, _, hk4, hk5⟩
  · exfalso
    have h1 := hall lo (Nat.le_refl _) (by omega)
    have h2 := dist_sq_le pal hp r g b lo hr hg hb
    simp only at h1
    omega
  · rw [hsum] at hk2 hk5
    exact ⟨k, hk1, hk2, heq, hk4, hk5⟩

/-- Whatever the range, the loop leaves in `nearest` either its initial 1
or an index of the range reduced to a byte. -/
theorem searchLoop_snd (pal : List png_color) (lo r g b : Nat) :
    (searchLoop pal lo r g b).2 = 1 ∨
      ∃ k, lo ≤ k ∧ k < pal.length ∧ lo < pal.length ∧ (searchLoop pal lo r g b).2 = k % 256 := by
  rcases search_fold pal r g b (pal.length - lo) lo (9999999, 1) with
    ⟨heq, _⟩ | ⟨k, hk1, hk2, heq, _, _, _⟩
  · left
    unfold searchLoop
    rw [heq]
  · right
    refine ⟨k, hk1, by omega, by omega, ?_⟩
    unfold searchLoop
    rw [heq]

/-! ## The row loops -/

/-- The inner loop stopped after `k` columns has overwritten the first `k`
bytes of `line`. -/
theorem line_fold_take (f : Nat → Nat) (line : List Nat) :
    ∀ k, k ≤ line.length →
      (List.range k).foldl
        (fun (ln : List Nat × Nat) x => (ln.1.set ln.2 (f x), ln.2 + 1)) (line, 0)
      = ((List.range k).map f ++ line.drop k, k) := by
  intro k
  induction k with
  | zero =>
    intro _
    simp
  | succ k ih =>
    intro hk
    have hk1 : k < line.length := by omega
    rw [List.range_succ, List.foldl_append, ih (by omega)]
    simp only [List.foldl_cons, List.foldl_nil, List.map_append, List.map_cons, List.map_nil]
    rw [List.set_append_right _ _ (by simp)]
    rw [List.drop_eq_getElem_cons hk1]
    simp only [List.length_map, List.length_range, Nat.sub_self, List.set_cons_zero,
      List.append_assoc, List.singleton_append]

/-- The inner loop run over a whole row replaces `line` by the row. -/
theorem line_fold (f : Nat → Nat) (w : Nat) (line : List Nat) (hlen : line.length = w) :
    (List.range w).foldl
        (fun (ln : List Nat × Nat) x => (ln.1.set ln.2 (f x), ln.2 + 1)) (line, 0)
      = ((List.range w).map f, w) := by
  rw [line_fold_take f line w (by omega)]
  rw [List.drop_of_length_le (by omega)]
  simp

/-- The two nested loops write, row after row, the value computed for each
column. -/
theorem rows_fold (g : Nat → Nat → Nat) (w : Nat) :
    ∀ (h : Nat) (line : List Nat), line.length = w →
      ((List.range h).foldl
        (fun (st : List Nat × List (List Nat)) y =>
          (((List.range w).foldl
              (fun (ln : List Nat × Nat) x => (ln.1.set ln.2 (g y x), ln.2 + 1))
              (st.1, 0)).1,
            st.2 ++ [((List.range w).foldl
              (fun (ln : List Nat × Nat) x => (ln.1.set ln.2 (g y x), ln.2 + 1))
              (st.1, 0)).1]))
        (line, [])).2
      = (List.range h).map fun y => (List.range w).map (g y) := by
  intro h line hlen
  suffices hs : ∃ ln : List Nat, ln.length = w ∧
      (List.range h).foldl
        (fun (st : List Nat × List (List Nat)) y =>
          (((List.range w).foldl
              (fun (ln : List Nat × Nat) x => (ln.1.set ln.2 (g y x), ln.2 + 1))
              (st.1, 0)).1,
            st.2 ++ [((List.range w).foldl
              (fun (ln : List Nat × Nat) x => (ln.1.set ln.2 (g y x), ln.2 + 1))
              (st.1, 0)).1]))
        (line, [])
      = (ln, (List.range h).map fun y => (List.range w).map (g y)) by
    obtain ⟨ln, _, heq⟩ := hs
    rw [heq]
  induction h with
  | zero => exact ⟨line, hlen, rfl⟩
  | succ h ih =>
    obtain ⟨ln, hl, heq⟩ := ih
    refine ⟨(List.range w).map (g h), by simp, ?_⟩
    rw [List.range_succ, List.foldl_append, heq]
    simp only [List.foldl_cons, List.foldl_nil, List.map_append, List.map_cons, List.map_nil]
    rw [line_fold (g h) w ln hl]

/-- The raster of `saveIndexedPNG` in closed form. -/
theorem saveIndexedPNG_eq (pal : List png_color) (screen : Image32) :
    saveIndexedPNG pal screen =
      (List.range screen.h).map fun y => (List.range screen.w).map fun x =>
        nearestIndex pal screen.hasAlphaChannel
          (peek screen.pixels ((y * screen.w) % 2 ^ 32 + x)) := by
  unfold saveIndexedPNG
  exact rows_fold
    (fun y x => nearestIndex pal screen.hasAlphaChannel
      (peek screen.pixels ((y * screen.w) % 2 ^ 32 + x)))
    screen.w screen.h (List.replicate screen.w 0) (by simp)

/-- The raster of `saveMask` in closed form. -/
theorem saveMask_eq (screen : Image32) :
    saveMask screen =
      (List.range screen.h).map fun y => (List.range screen.w).map fun x =>
        chanA (peek screen.pixels ((y * screen.w) % 2 ^ 32 + x)) := by
  unfold saveMask
  exact rows_fold
    (fun y x => chanA (peek screen.pixels ((y * screen.w) % 2 ^ 32 + x)))
    screen.w screen.h (List.replicate screen.w 0) (by simp)

theorem sampleAt_map (g : Nat → Nat → Nat) (w h y x : Nat) (hy : y < h) (hx : x < w) :
    sampleAt ((List.range h).map fun y => (List.range w).map (g y)) y x = some (g y x) := by
  unfold sampleAt
  simp [List.get?_eq_getElem?, List.getElem?_map, List.getElem?_range hy,
    List.getElem?_range hx]

/-- Inside a well-formed image the 32-bit row offset does not wrap. -/
theorem row_offset (img : Image32) (hs : img.wf) (y : Nat) (hy : y < img.h) :
    (y * img.w) % 2 ^ 32 = y * img.w := by
  obtain ⟨_, h2⟩ := hs
  apply Nat.mod_eq_of_lt
  have h3 : y * img.w ≤ img.h * img.w := Nat.mul_le_mul_right _ (Nat.le_of_lt hy)
  rw [Nat.mul_comm img.h img.w] at h3
  omega

/-- The index `saveIndexedPNG` writes at row `y`, column `x`. -/
theorem saveIndexedPNG_sample (pal : List png_color) (screen : Image32) (hs : screen.wf)
    (y x : Nat) (hy : y < screen.h) (hx : x < screen.w) :
    sampleAt (saveIndexedPNG pal screen) y x =
      some (nearestIndex pal screen.hasAlphaChannel (peek screen.pixels (y * screen.w + x))) := by
  rw [saveIndexedPNG_eq]
  rw [sampleAt_map (fun y x => nearestIndex pal screen.hasAlphaChannel
      (peek screen.pixels ((y * screen.w) % 2 ^ 32 + x))) screen.w screen.h y x hy hx]
  simp only [row_offset screen hs y hy]

/-- The sample `saveMask` writes at row `y`, column `x`. -/
theorem saveMask_sample (screen : Image32) (hs : screen.wf)
    (y x : Nat) (hy : y < screen.h) (hx : x < screen.w) :
    sampleAt (saveMask screen) y x = some (chanA (peek screen.pixels (y * screen.w + x))) := by
  rw [saveMask_eq]
  rw [sampleAt_map (fun y x => chanA (peek screen.pixels ((y * screen.w) % 2 ^ 32 + x)))
      screen.w screen.h y x hy hx]
  simp only [row_offset screen hs y hy]

/-- The alpha byte is bits 24..31 of the pixel word. -/
theorem chanA_eq (c : Nat) : chanA c = c / 2 ^ 24 % 256 := by
  unfold chanA
  rw [Nat.shiftRight_eq_div_pow]
  exact Nat.and_pow_two_sub_one_eq_mod _ 8

/-- When the pixel goes through the search, `nearest` is what the loop leaves. -/
theorem nearestIndex_search (pal : List png_color) (al : Bool) (c : Nat)
    (hsearch : ¬ (al = true ∧ chanA c = 0)) :
    nearestIndex pal al c = (searchLoop pal (searchLo al) (chanR c) (chanG c) (chanB c)).2 := by
  unfold nearestIndex
  simp only
  rw [if_neg]
  simpa using hsearch

/-- The search on a non-empty range, read at the level of `nearestIndex`. -/
theorem nearestIndex_spec (pal : List png_color) (al : Bool) (c : Nat)
    (hn : pal.length ≤ 256) (hp : pal_wf pal)
    (hsearch : ¬ (al = true ∧ chanA c = 0)) (hrange : searchLo al < pal.length) :
    searchLo al ≤ nearestIndex pal al c ∧ nearestIndex pal al c < pal.length ∧
    (∀ j, searchLo al ≤ j → j < nearestIndex pal al c →
      dist_sq pal (chanR c) (chanG c) (chanB c) (nearestIndex pal al c)
        < dist_sq pal (chanR c) (chanG c) (chanB c) j) ∧
    (∀ j, nearestIndex pal al c ≤ j → j < pal.length →
      dist_sq pal (chanR c) (chanG c) (chanB c) (nearestIndex pal al c)
        ≤ dist_sq pal (chanR c) (chanG c) (chanB c) j) := by
  obtain ⟨k, hk1, hk2, heq, hk4, hk5⟩ :=
    searchLoop_spec pal hp (searchLo al) (chanR c) (chanG c) (chanB c)
      (chanR_lt c) (chanG_lt c) (chanB_lt c) hrange
  have hk : nearestIndex pal al c = k := by
    rw [nearestIndex_search pal al c hsearch, heq]
    exact Nat.mod_eq_of_lt (by omega)
  rw [hk]
  exact ⟨hk1, hk2, hk4, hk5⟩

theorem dist_sq_eq_zero_iff (pal : List png_color) (r g b j : Nat) :
    dist_sq pal r g b j = 0 ↔ palAt pal j = ⟨r, g, b⟩ := by
  unfold dist_sq
  simp only
  constructor
  · intro h
    have h1 := mul_self_nonneg ((r : Int) - ((palAt pal j).red : Int))
    have h2 := mul_self_nonneg ((g : Int) - ((palAt pal j).green : Int))
    have h3 := mul_self_nonneg ((b : Int) - ((palAt pal j).blue : Int))
    have e1 : ((r : Int) - ((palAt pal j).red : Int)) * ((r : Int) - ((palAt pal j).red : Int)) = 0 := by
      omega
    have e2 : ((g : Int) - ((palAt pal j).green : Int)) * ((g : Int) - ((palAt pal j).green : Int)) = 0 := by
      omega
    have e3 : ((b : Int) - ((palAt pal j).blue : Int)) * ((b : Int) - ((palAt pal j).blue : Int)) = 0 := by
      omega
    have f1 := mul_self_eq_zero.mp e1
    have f2 := mul_self_eq_zero.mp e2
    have f3 := mul_self_eq_zero.mp e3
    cases hc : palAt pal j with
    | mk pr pg pb =>
      rw [hc] at f1 f2 f3
      simp only at f1 f2 f3
      have g1 : pr = r := by omega
      have g2 : pg = g := by omega
      have g3 : pb = b := by omega
      rw [g1, g2, g3]
  · intro h
    rw [h]
    simp

/-! ## The model's accessors in plain arithmetic -/

/-- The red byte is bits 0..7 of the pixel word. -/
theorem chanR_eq (c : Nat) : chanR c = c % 256 :=
  Nat.and_pow_two_sub_one_eq_mod c 8

/-- The green byte is bits 8..15 of the pixel word. -/
theorem chanG_eq (c : Nat) : chanG c = c / 2 ^ 8 % 256 := by
  unfold chanG
  rw [Nat.shiftRight_eq_div_pow]
  exact Nat.and_pow_two_sub_one_eq_mod _ 8

/-- The blue byte is bits 16..23 of the pixel word. -/
theorem chanB_eq (c : Nat) : chanB c = c / 2 ^ 16 % 256 := by
  unfold chanB
  rw [Nat.shiftRight_eq_div_pow]
  exact Nat.and_pow_two_sub_one_eq_mod _ 8

/-- The bytes of a word assembled from four bytes. -/
theorem word_bytes (r g b a : Nat) (hr : r < 256) (hg : g < 256) (hb : b < 256)
    (ha : a < 256) :
    (r + g * 2 ^ 8 + b * 2 ^ 16 + a * 2 ^ 24) % 256 = r ∧
    (r + g * 2 ^ 8 + b * 2 ^ 16 + a * 2 ^ 24) / 2 ^ 8 % 256 = g ∧
    (r + g * 2 ^ 8 + b * 2 ^ 16 + a * 2 ^ 24) / 2 ^ 16 % 256 = b ∧
    (r + g * 2 ^ 8 + b * 2 ^ 16 + a * 2 ^ 24) / 2 ^ 24 % 256 = a := by
  refine ⟨?_, ?_, ?_, ?_⟩ <;> omega

theorem searchLo_eq (al : Bool) : searchLo al = if al = true then 1 else 0 := rfl

theorem peek_of_get (buf : List Nat) (i c : Nat) (h : buf.get? i = some c) :
    peek buf i = c := by
  unfold peek
  simp [List.getD_eq_getElem?_getD, ← List.get?_eq_getElem?, h]

theorem palAt_of_get (pal : List png_color) (j : Nat) (pj : png_color)
    (h : pal.get? j = some pj) : palAt pal j = pj := by
  unfold palAt
  simp [List.getD_eq_getElem?_getD, ← List.get?_eq_getElem?, h]

theorem get_of_lt (pal : List png_color) (j : Nat) (h : j < pal.length) :
    pal.get? j = some (palAt pal j) := by
  unfold palAt
  rw [List.getD_eq_getElem _ _ h, List.get?_eq_get h]
  rfl

theorem lt_of_get (pal : List png_color) (j : Nat) (pj : png_color)
    (h : pal.get? j = some pj) : j < pal.length := by
  obtain ⟨hlt, _⟩ := List.get?_eq_some.mp h
  exact hlt

/-- The value of `dist_sq` for entry `j` is the sum of the squared
differences between the three low bytes of the pixel word and the three
fields of `pal[j]`. -/
theorem dist_sq_explicit (pal : List png_color) (c j : Nat) (pj : png_color)
    (h : pal.get? j = some pj) :
    dist_sq pal (chanR c) (chanG c) (chanB c) j =
      (((c % 256 : Nat) : Int) - (pj.red : Int)) ^ 2
      + (((c / 2 ^ 8 % 256 : Nat) : Int) - (pj.green : Int)) ^ 2
      + (((c / 2 ^ 16 % 256 : Nat) : Int) - (pj.blue : Int)) ^ 2 := by
  unfold dist_sq
  rw [palAt_of_get pal j pj h, chanR_eq, chanG_eq, chanB_eq]
  simp only
  ring

/-- The search in plain terms: on a non-empty range over a palette of bytes,
`nearest` is an index of the range, strictly nearer than every lower index
of the range and at least as near as every higher one. -/
theorem nearestIndex_metric (pal : List png_color) (al : Bool) (c : Nat)
    (hn : pal.length ≤ 256) (hp : pal_wf pal)
    (hsearch : ¬ (al = true ∧ c / 2 ^ 24 % 256 = 0))
    (hrange : (if al = true then 1 else 0) < pal.length) :
    ∃ pk, pal.get? (nearestIndex pal al c) = some pk ∧
      (if al = true then 1 else 0) ≤ nearestIndex pal al c ∧
      nearestIndex pal al c < pal.length ∧
      (∀ j pj, (if al = true then 1 else 0) ≤ j → j < nearestIndex pal al c →
        pal.get? j = some pj →
        (((c % 256 : Nat) : Int) - (pk.red : Int)) ^ 2
          + (((c / 2 ^ 8 % 256 : Nat) : Int) - (pk.green : Int)) ^ 2
          + (((c / 2 ^ 16 % 256 : Nat) : Int) - (pk.blue : Int)) ^ 2
        < (((c % 256 : Nat) : Int) - (pj.red : Int)) ^ 2
          + (((c / 2 ^ 8 % 256 : Nat) : Int) - (pj.green : Int)) ^ 2
          + (((c / 2 ^ 16 % 256 : Nat) : Int) - (pj.blue : Int)) ^ 2) ∧
      (∀ j pj, nearestIndex pal al c ≤ j → pal.get? j = some pj →
        (((c % 256 : Nat) : Int) - (pk.red : Int)) ^ 2
          + (((c / 2 ^ 8 % 256 : Nat) : Int) - (pk.green : Int)) ^ 2
          + (((c / 2 ^ 16 % 256 : Nat) : Int) - (pk.blue : Int)) ^ 2
        ≤ (((c % 256 : Nat) : Int) - (pj.red : Int)) ^ 2
          + (((c / 2 ^ 8 % 256 : Nat) : Int) - (pj.green : Int)) ^ 2
          + (((c / 2 ^ 16 % 256 : Nat) : Int) - (pj.blue : Int)) ^ 2) := by
  have hsearch2 : ¬ (al = true ∧ chanA c = 0) := by
    rw [chanA_eq]
    exact hsearch
  rw [← searchLo_eq] at hrange ⊢
  obtain ⟨h1, h2, h3, h4⟩ := nearestIndex_spec pal al c hn hp hsearch2 hrange
  have hk := get_of_lt pal _ h2
  refine ⟨_, hk, h1, h2, ?_, ?_⟩
  · intro j pj hj1 hj2 hj
    rw [← dist_sq_explicit pal c _ _ hk, ← dist_sq_explicit pal c j pj hj]
    exact h3 j hj1 hj2
  · intro j pj hj1 hj
    rw [← dist_sq_explicit pal c _ _ hk, ← dist_sq_explicit pal c j pj hj]
    exact h4 j hj1 (lt_of_get pal j pj hj)

theorem mem_of_get (pal : List png_color) (j : Nat) (pj : png_color)
    (h : pal.get? j = some pj) : pj ∈ pal := by
  obtain ⟨hlt, hget⟩ := List.get?_eq_some.mp h
  rw [← hget]
  exact List.get_mem pal j hlt

/-- A row and a column inside the image address a pixel inside the buffer. -/
theorem index_lt (img : Image32) (y x : Nat) (hy : y < img.h) (hx : x < img.w) :
    y * img.w + x < img.w * img.h := by
  have h3 : (y + 1) * img.w ≤ img.h * img.w := Nat.mul_le_mul_right _ hy
  rw [Nat.add_mul, Nat.one_mul, Nat.mul_comm img.h img.w] at h3
  omega

/-- An exact match in the range: `nearest` is then the lowest index of the
range whose entry equals the pixel's three colour bytes. -/
theorem nearestIndex_fixed (pal : List png_color) (al : Bool) (c : Nat)
    (hn : pal.length ≤ 256) (hp : pal_wf pal)
    (hsearch : ¬ (al = true ∧ chanA c = 0))
    (j0 : Nat) (hj1 : searchLo al ≤ j0) (hj2 : j0 < pal.length)
    (hj3 : palAt pal j0 = ⟨chanR c, chanG c, chanB c⟩) :
    searchLo al ≤ nearestIndex pal al c ∧ nearestIndex pal al c < pal.length ∧
    palAt pal (nearestIndex pal al c) = ⟨chanR c, chanG c, chanB c⟩ ∧
    ∀ j, searchLo al ≤ j → palAt pal j = ⟨chanR c, chanG c, chanB c⟩ →
      nearestIndex pal al c ≤ j := by
  obtain ⟨h1, h2, h3, h4⟩ := nearestIndex_spec pal al c hn hp hsearch (by omega)
  have hnn := dist_sq_nonneg pal (chanR c) (chanG c) (chanB c) (nearestIndex pal al c)
  have hlow : ∀ j, searchLo al ≤ j → palAt pal j = ⟨chanR c, chanG c, chanB c⟩ →
      nearestIndex pal al c ≤ j := by
    intro j hl hcol
    by_contra hlt
    have hd := h3 j hl (Nat.lt_of_not_le hlt)
    rw [(dist_sq_eq_zero_iff pal _ _ _ j).mpr hcol] at hd
    omega
  refine ⟨h1, h2, ?_, hlow⟩
  apply (dist_sq_eq_zero_iff pal _ _ _ _).mp
  have hle := h4 j0 (hlow j0 hj1 hj3) hj2
  rw [(dist_sq_eq_zero_iff pal _ _ _ j0).mpr hj3] at hle
  omega

/-- The index written at row `y`, column `x`, for the pixel word stored at
`y * w + x`. -/
theorem saveIndexedPNG_at (pal : List png_color) (screen : Image32) (hs : screen.wf)
    (y x c : Nat) (hy : y < screen.h) (hx : x < screen.w)
    (hc : screen.pixels.get? (y * screen.w + x) = some c) :
    sampleAt (saveIndexedPNG pal screen) y x =
      some (nearestIndex pal screen.hasAlphaChannel c) := by
  rw [saveIndexedPNG_sample pal screen hs y x hy hx, peek_of_get _ _ _ hc]

/-! ## The claims -/

/-- C1. Nearest-colour minimality: a pixel word `c` that goes through the
search on a non-empty range `[lo, ncolors)`, `lo` being 1 with an alpha
channel and 0 without, is written as an index `k` of that range, and the sum
of squared differences between the bytes `r = c % 256`, `g = c / 2^8 % 256`,
`b = c / 2^16 % 256` and the fields of `pal[k]` is at most the same sum for
every `pal[j]` of the range. -/
theorem nearest_colour_minimal (pal : List png_color) (screen : Image32) (y x c : Nat)
    (hn : pal.length ≤ 256) (hp : pal_wf pal) (hs : screen.wf)
    (hy : y < screen.h) (hx : x < screen.w)
    (hc : screen.pixels.get? (y * screen.w + x) = some c)
    (hsearch : ¬ (screen.hasAlphaChannel = true ∧ c / 2 ^ 24 % 256 = 0))
    (hrange : (if screen.hasAlphaChannel = true then 1 else 0) < pal.length) :
    ∃ k pk, sampleAt (saveIndexedPNG pal screen) y x = some k ∧
      (if screen.hasAlphaChannel = true then 1 else 0) ≤ k ∧ k < pal.length ∧
      pal.get? k = some pk ∧
      ∀ j pj, (if screen.hasAlphaChannel = true then 1 else 0) ≤ j → j < pal.length →
        pal.get? j = some pj →
        (((c % 256 : Nat) : Int) - (pk.red : Int)) ^ 2
          + (((c / 2 ^ 8 % 256 : Nat) : Int) - (pk.green : Int)) ^ 2
          + (((c / 2 ^ 16 % 256 : Nat) : Int) - (pk.blue : Int)) ^ 2
        ≤ (((c % 256 : Nat) : Int) - (pj.red : Int)) ^ 2
          + (((c / 2 ^ 8 % 256 : Nat) : Int) - (pj.green : Int)) ^ 2
          + (((c / 2 ^ 16 % 256 : Nat) : Int) - (pj.blue : Int)) ^ 2 := by
  obtain ⟨pk, hk, h1, h2, h3, h4⟩ :=
    nearestIndex_metric pal screen.hasAlphaChannel c hn hp hsearch hrange
  refine ⟨_, pk, saveIndexedPNG_at pal screen hs y x c hy hx hc, h1, h2, hk, ?_⟩
  intro j pj hj1 _ hj
  by_cases hjk : j < nearestIndex pal screen.hasAlphaChannel c
  · exact le_of_lt (h3 j pj hj1 hjk hj)
  · exact h4 j pj (Nat.le_of_not_lt hjk) hj

/-- C1 at a dark grey pixel without alpha channel, at a black pixel of alpha
255 under an alpha channel (entry 0 is black, yet the index is 1) and at the
red pixel of the end-to-end scenario, followed by the values written for the
claim's sample pixels. -/
theorem nearest_colour_minimal_witness :
    ([black, white].length ≤ 256 ∧
      pal_wf [black, white] ∧
      (solid1 10 10 10).wf ∧
      0 < (solid1 10 10 10).h ∧
      0 < (solid1 10 10 10).w ∧
      (solid1 10 10 10).pixels.get? (0 * (solid1 10 10 10).w + 0) = some (rgba 10 10 10 255) ∧
      ¬ ((solid1 10 10 10).hasAlphaChannel = true ∧ (rgba 10 10 10 255) / 2 ^ 24 % 256 = 0) ∧
      (if (solid1 10 10 10).hasAlphaChannel = true then 1 else 0) < [black, white].length) ∧
    (∃ k pk, sampleAt (saveIndexedPNG [black, white] (solid1 10 10 10)) 0 0 = some k ∧
      (if (solid1 10 10 10).hasAlphaChannel = true then 1 else 0) ≤ k ∧ k < [black, white].length ∧
      [black, white].get? k = some pk ∧
      ∀ j pj, (if (solid1 10 10 10).hasAlphaChannel = true then 1 else 0) ≤ j → j < [black, white].length →
        [black, white].get? j = some pj →
        ((((rgba 10 10 10 255) % 256 : Nat) : Int) - (pk.red : Int)) ^ 2
          + ((((rgba 10 10 10 255) / 2 ^ 8 % 256 : Nat) : Int) - (pk.green : Int)) ^ 2
          + ((((rgba 10 10 10 255) / 2 ^ 16 % 256 : Nat) : Int) - (pk.blue : Int)) ^ 2
        ≤ ((((rgba 10 10 10 255) % 256 : Nat) : Int) - (pj.red : Int)) ^ 2
          + ((((rgba 10 10 10 255) / 2 ^ 8 % 256 : Nat) : Int) - (pj.green : Int)) ^ 2
          + ((((rgba 10 10 10 255) / 2 ^ 16 % 256 : Nat) : Int) - (pj.blue : Int)) ^ 2) ∧
    (pal4.length ≤ 256 ∧
      pal_wf pal4 ∧
      (solidA 0 0 0).wf ∧
      0 < (solidA 0 0 0).h ∧
      0 < (solidA 0 0 0).w ∧
      (solidA 0 0 0).pixels.get? (0 * (solidA 0 0 0).w + 0) = some (rgba 0 0 0 255) ∧
      ¬ ((solidA 0 0 0).hasAlphaChannel = true ∧ (rgba 0 0 0 255) / 2 ^ 24 % 256 = 0) ∧
      (if (solidA 0 0 0).hasAlphaChannel = true then 1 else 0) < pal4.length) ∧
    (∃ k pk, sampleAt (saveIndexedPNG pal4 (solidA 0 0 0)) 0 0 = some k ∧
      (if (solidA 0 0 0).hasAlphaChannel = true then 1 else 0) ≤ k ∧ k < pal4.length ∧
      pal4.get? k = some pk ∧
      ∀ j pj, (if (solidA 0 0 0).hasAlphaChannel = true then 1 else 0) ≤ j → j < pal4.length →
        pal4.get? j = some pj →
        ((((rgba 0 0 0 255) % 256 : Nat) : Int) - (pk.red : Int)) ^ 2
          + ((((rgba 0 0 0 255) / 2 ^ 8 % 256 : Nat) : Int) - (pk.green : Int)) ^ 2
          + ((((rgba 0 0 0 255) / 2 ^ 16 % 256 : Nat) : Int) - (pk.blue : Int)) ^ 2
        ≤ ((((rgba 0 0 0 255) % 256 : Nat) : Int) - (pj.red : Int)) ^ 2
          + ((((rgba 0 0 0 255) / 2 ^ 8 % 256 : Nat) : Int) - (pj.green : Int)) ^ 2
          + ((((rgba 0 0 0 255) / 2 ^ 16 % 256 : Nat) : Int) - (pj.blue : Int)) ^ 2) ∧
    (pal4.length ≤ 256 ∧
      pal_wf pal4 ∧
      scenario.wf ∧
      0 < scenario.h ∧
      0 < scenario.w ∧
      scenario.pixels.get? (0 * scenario.w + 0) = some (rgba 255 0 0 255) ∧
      ¬ (scenario.hasAlphaChannel = true ∧ (rgba 255 0 0 255) / 2 ^ 24 % 256 = 0) ∧
      (if scenario.hasAlphaChannel = true then 1 else 0) < pal4.length) ∧
    (∃ k pk, sampleAt (saveIndexedPNG pal4 scenario) 0 0 = some k ∧
      (if scenario.hasAlphaChannel = true then 1 else 0) ≤ k ∧ k < pal4.length ∧
      pal4.get? k = some pk ∧
      ∀ j pj, (if scenario.hasAlphaChannel = true then 1 else 0) ≤ j → j < pal4.length →
        pal4.get? j = some pj →
        ((((rgba 255 0 0 255) % 256 : Nat) : Int) - (pk.red : Int)) ^ 2
          + ((((rgba 255 0 0 255) / 2 ^ 8 % 256 : Nat) : Int) - (pk.green : Int)) ^ 2
          + ((((rgba 255 0 0 255) / 2 ^ 16 % 256 : Nat) : Int) - (pk.blue : Int)) ^ 2
        ≤ ((((rgba 255 0 0 255) % 256 : Nat) : Int) - (pj.red : Int)) ^ 2
          + ((((rgba 255 0 0 255) / 2 ^ 8 % 256 : Nat) : Int) - (pj.green : Int)) ^ 2
          + ((((rgba 255 0 0 255) / 2 ^ 16 % 256 : Nat) : Int) - (pj.blue : Int)) ^ 2) ∧
    sampleAt (saveIndexedPNG [black, white] (solid1 10 10 10)) 0 0 = some 0 ∧
    sampleAt (saveIndexedPNG [black, white] (solid1 250 250 250)) 0 0 = some 1 ∧
    sampleAt (saveIndexedPNG pal4 scenario) 0 0 = some 1 ∧
    saveIndexedPNG pal4 scenario = [[1, 0]] ∧
    sampleAt (saveIndexedPNG pal4 (solidA 0 0 0)) 0 0 = some 1 ∧
    sampleAt (saveIndexedPNG pal4 (solidA 255 255 255)) 0 0 = some 3 ∧
    sampleAt (saveIndexedPNG pal4 (solidA 0 200 0)) 0 0 = some 2 ∧
    sampleAt (saveIndexedPNG palBlue (solid1 0 0 255)) 0 0 = some 0 ∧
    sampleAt (saveIndexedPNG palBlue (solid1 0 0 0)) 0 0 = some 1 ∧
    sampleAt (saveIndexedPNG pal4 rendered) 1 0 = some 2 ∧
    saveIndexedPNG pal4 rendered = [[1, 3], [2, 1]] ∧
    rgba 10 10 10 255 = 10 + 10 * 2 ^ 8 + 10 * 2 ^ 16 + 255 * 2 ^ 24 ∧
    rgba 0 0 0 255 = 0 + 0 * 2 ^ 8 + 0 * 2 ^ 16 + 255 * 2 ^ 24 ∧
    rgba 255 0 0 255 = 255 + 0 * 2 ^ 8 + 0 * 2 ^ 16 + 255 * 2 ^ 24 :=
  ⟨by decide,
   nearest_colour_minimal [black, white] (solid1 10 10 10) 0 0 (rgba 10 10 10 255)
     (by decide) (by decide) (by decide) (by decide) (by decide) (by decide) (by decide) (by decide),
   by decide,
   nearest_colour_minimal pal4 (solidA 0 0 0) 0 0 (rgba 0 0 0 255)
     (by decide) (by decide) (by decide) (by decide) (by decide) (by decide) (by decide) (by decide),
   by decide,
   nearest_colour_minimal pal4 scenario 0 0 (rgba 255 0 0 255)
     (by decide) (by decide) (by decide) (by decide) (by decide) (by decide) (by decide) (by decide),
   by decide, by decide, by decide, by decide, by decide, by decide, by decide, by decide,
   by decide, by decide, by decide, by decide, by decide, by decide⟩

/-- C2. On a palette of one colour and an image with an alpha channel, a
pixel of alpha 255 finds the search range `[1, 1)` empty and is written as the
initial value 1 of `nearest`, which is not below `pal_ncolors = 1`. -/
theorem index_bound_single_colour_alpha :
    1 ≤ pal1.length ∧ pal1.length ≤ 256 ∧ pal_wf pal1 ∧ solidAlpha1.wf ∧
    saveIndexedPNG pal1 solidAlpha1 = [[1]] ∧
    sampleAt (saveIndexedPNG pal1 solidAlpha1) 0 0 = some 1 ∧
    ¬ (1 < pal1.length) := by
  decide

/-- C3. Reserved transparent index: in an image with an alpha channel the
index written for a pixel is 0 exactly when the pixel's alpha byte, bits
24..31 of the pixel word, is 0. -/
theorem transparent_index_iff (pal : List png_color) (screen : Image32) (y x : Nat)
    (hn : pal.length ≤ 256) (hs : screen.wf) (ha : screen.hasAlphaChannel = true)
    (hy : y < screen.h) (hx : x < screen.w) :
    ∃ k, sampleAt (saveIndexedPNG pal screen) y x = some k ∧
      (k = 0 ↔ peek screen.pixels (y * screen.w + x) / 2 ^ 24 % 256 = 0) := by
  refine ⟨_, saveIndexedPNG_sample pal screen hs y x hy hx, ?_⟩
  rw [← chanA_eq, ha]
  by_cases hz : chanA (peek screen.pixels (y * screen.w + x)) = 0
  · have h0 : nearestIndex pal true (peek screen.pixels (y * screen.w + x)) = 0 := by
      unfold nearestIndex
      simp [hz]
    simp [h0, hz]
  · have hsearch : ¬ (true = true ∧ chanA (peek screen.pixels (y * screen.w + x)) = 0) := by
      simp [hz]
    have hne : nearestIndex pal true (peek screen.pixels (y * screen.w + x)) ≠ 0 := by
      rw [nearestIndex_search pal true _ hsearch]
      rcases searchLoop_snd pal (searchLo true) (chanR (peek screen.pixels (y * screen.w + x)))
        (chanG (peek screen.pixels (y * screen.w + x)))
        (chanB (peek screen.pixels (y * screen.w + x))) with h1 | ⟨k, hk1, hk2, _, hk3⟩
      · rw [h1]
        decide
      · rw [hk3, Nat.mod_eq_of_lt (by omega)]
        have : searchLo true = 1 := rfl
        omega
    simp [hne, hz]

/-- C3 on the end-to-end scenario: the solid red pixel gets index 1, the
transparent one index 0. -/
theorem transparent_index_iff_witness :
    (pal4.length ≤ 256 ∧ scenario.wf ∧ scenario.hasAlphaChannel = true ∧
      0 < scenario.h ∧ 1 < scenario.w) ∧
    (∃ k, sampleAt (saveIndexedPNG pal4 scenario) 0 1 = some k ∧
      (k = 0 ↔ peek scenario.pixels (0 * scenario.w + 1) / 2 ^ 24 % 256 = 0)) ∧
    (∃ k, sampleAt (saveIndexedPNG pal4 scenario) 0 0 = some k ∧
      (k = 0 ↔ peek scenario.pixels (0 * scenario.w + 0) / 2 ^ 24 % 256 = 0)) ∧
    sampleAt (saveIndexedPNG pal4 scenario) 0 1 = some 0 ∧
    peek scenario.pixels 1 / 2 ^ 24 % 256 = 0 ∧
    sampleAt (saveIndexedPNG pal4 scenario) 0 0 = some 1 ∧
    peek scenario.pixels 0 / 2 ^ 24 % 256 = 255 :=
  ⟨by decide,
   transparent_index_iff pal4 scenario 0 1 (by decide) (by decide) (by decide)
     (by decide) (by decide),
   transparent_index_iff pal4 scenario 0 0 (by decide) (by decide) (by decide)
     (by decide) (by decide),
   by decide, by decide, by decide, by decide⟩

/-- C4. Tie-breaking: the index `k` written by the search is the lowest one
of least distance.  Every `j` with `lo <= j < k`, `lo` being 1 with an alpha
channel and 0 without, has a strictly greater sum of squared differences
between the pixel's bytes `c % 256`, `c / 2^8 % 256`, `c / 2^16 % 256` and
the fields of `pal[j]`; so an entry of the range at exactly the distance of
`pal[k]` has an index not below `k`. -/
theorem tie_lowest_index (pal : List png_color) (screen : Image32) (y x c : Nat)
    (hn : pal.length ≤ 256) (hp : pal_wf pal) (hs : screen.wf)
    (hy : y < screen.h) (hx : x < screen.w)
    (hc : screen.pixels.get? (y * screen.w + x) = some c)
    (hsearch : ¬ (screen.hasAlphaChannel = true ∧ c / 2 ^ 24 % 256 = 0))
    (hrange : (if screen.hasAlphaChannel = true then 1 else 0) < pal.length) :
    ∃ k pk, sampleAt (saveIndexedPNG pal screen) y x = some k ∧
      (if screen.hasAlphaChannel = true then 1 else 0) ≤ k ∧ k < pal.length ∧
      pal.get? k = some pk ∧
      (∀ j pj, (if screen.hasAlphaChannel = true then 1 else 0) ≤ j → j < k →
        pal.get? j = some pj →
        (((c % 256 : Nat) : Int) - (pk.red : Int)) ^ 2
          + (((c / 2 ^ 8 % 256 : Nat) : Int) - (pk.green : Int)) ^ 2
          + (((c / 2 ^ 16 % 256 : Nat) : Int) - (pk.blue : Int)) ^ 2
        < (((c % 256 : Nat) : Int) - (pj.red : Int)) ^ 2
          + (((c / 2 ^ 8 % 256 : Nat) : Int) - (pj.green : Int)) ^ 2
          + (((c / 2 ^ 16 % 256 : Nat) : Int) - (pj.blue : Int)) ^ 2) ∧
      (∀ j pj, (if screen.hasAlphaChannel = true then 1 else 0) ≤ j →
        pal.get? j = some pj →
        (((c % 256 : Nat) : Int) - (pj.red : Int)) ^ 2
          + (((c / 2 ^ 8 % 256 : Nat) : Int) - (pj.green : Int)) ^ 2
          + (((c / 2 ^ 16 % 256 : Nat) : Int) - (pj.blue : Int)) ^ 2
        = (((c % 256 : Nat) : Int) - (pk.red : Int)) ^ 2
          + (((c / 2 ^ 8 % 256 : Nat) : Int) - (pk.green : Int)) ^ 2
          + (((c / 2 ^ 16 % 256 : Nat) : Int) - (pk.blue : Int)) ^ 2 →
        k ≤ j) := by
  obtain ⟨pk, hk, h1, h2, h3, _⟩ :=
    nearestIndex_metric pal screen.hasAlphaChannel c hn hp hsearch hrange
  refine ⟨_, pk, saveIndexedPNG_at pal screen hs y x c hy hx hc, h1, h2, hk, h3, ?_⟩
  intro j pj hj1 hj heq
  by_contra hlt
  have := h3 j pj hj1 (Nat.lt_of_not_le hlt) hj
  omega

/-- C4 on four distinct colours all at squared distance 3 from the pixel
`(1, 1, 1)`: without alpha channel index 0 is written, with one index 1; and
on a palette whose entries 1 and 2 are both red, where a red pixel is
written as 1. -/
theorem tie_lowest_index_witness :
    (palEqui.length ≤ 256 ∧
      pal_wf palEqui ∧
      (solid1 1 1 1).wf ∧
      0 < (solid1 1 1 1).h ∧
      0 < (solid1 1 1 1).w ∧
      (solid1 1 1 1).pixels.get? (0 * (solid1 1 1 1).w + 0) = some (rgba 1 1 1 255) ∧
      ¬ ((solid1 1 1 1).hasAlphaChannel = true ∧ (rgba 1 1 1 255) / 2 ^ 24 % 256 = 0) ∧
      (if (solid1 1 1 1).hasAlphaChannel = true then 1 else 0) < palEqui.length) ∧
    (∃ k pk, sampleAt (saveIndexedPNG palEqui (solid1 1 1 1)) 0 0 = some k ∧
      (if (solid1 1 1 1).hasAlphaChannel = true then 1 else 0) ≤ k ∧ k < palEqui.length ∧
      palEqui.get? k = some pk ∧
      (∀ j pj, (if (solid1 1 1 1).hasAlphaChannel = true then 1 else 0) ≤ j → j < k →
        palEqui.get? j = some pj →
        ((((rgba 1 1 1 255) % 256 : Nat) : Int) - (pk.red : Int)) ^ 2
          + ((((rgba 1 1 1 255) / 2 ^ 8 % 256 : Nat) : Int) - (pk.green : Int)) ^ 2
          + ((((rgba 1 1 1 255) / 2 ^ 16 % 256 : Nat) : Int) - (pk.blue : Int)) ^ 2
        < ((((rgba 1 1 1 255) % 256 : Nat) : Int) - (pj.red : Int)) ^ 2
          + ((((rgba 1 1 1 255) / 2 ^ 8 % 256 : Nat) : Int) - (pj.green : Int)) ^ 2
          + ((((rgba 1 1 1 255) / 2 ^ 16 % 256 : Nat) : Int) - (pj.blue : Int)) ^ 2) ∧
      (∀ j pj, (if (solid1 1 1 1).hasAlphaChannel = true then 1 else 0) ≤ j →
        palEqui.get? j = some pj →
        ((((rgba 1 1 1 255) % 256 : Nat) : Int) - (pj.red : Int)) ^ 2
          + ((((rgba 1 1 1 255) / 2 ^ 8 % 256 : Nat) : Int) - (pj.green : Int)) ^ 2
          + ((((rgba 1 1 1 255) / 2 ^ 16 % 256 : Nat) : Int) - (pj.blue : Int)) ^ 2
        = ((((rgba 1 1 1 255) % 256 : Nat) : Int) - (pk.red : Int)) ^ 2
          + ((((rgba 1 1 1 255) / 2 ^ 8 % 256 : Nat) : Int) - (pk.green : Int)) ^ 2
          + ((((rgba 1 1 1 255) / 2 ^ 16 % 256 : Nat) : Int) - (pk.blue : Int)) ^ 2 →
        k ≤ j)) ∧
    (palEqui.length ≤ 256 ∧
      pal_wf palEqui ∧
      (solidA 1 1 1).wf ∧
      0 < (solidA 1 1 1).h ∧
      0 < (solidA 1 1 1).w ∧
      (solidA 1 1 1).pixels.get? (0 * (solidA 1 1 1).w + 0) = some (rgba 1 1 1 255) ∧
      ¬ ((solidA 1 1 1).hasAlphaChannel = true ∧ (rgba 1 1 1 255) / 2 ^ 24 % 256 = 0) ∧
      (if (solidA 1 1 1).hasAlphaChannel = true then 1 else 0) < palEqui.length) ∧
    (∃ k pk, sampleAt (saveIndexedPNG palEqui (solidA 1 1 1)) 0 0 = some k ∧
      (if (solidA 1 1 1).hasAlphaChannel = true then 1 else 0) ≤ k ∧ k < palEqui.length ∧
      palEqui.get? k = some pk ∧
      (∀ j pj, (if (solidA 1 1 1).hasAlphaChannel = true then 1 else 0) ≤ j → j < k →
        palEqui.get? j = some pj →
        ((((rgba 1 1 1 255) % 256 : Nat) : Int) - (pk.red : Int)) ^ 2
          + ((((rgba 1 1 1 255) / 2 ^ 8 % 256 : Nat) : Int) - (pk.green : Int)) ^ 2
          + ((((rgba 1 1 1 255) / 2 ^ 16 % 256 : Nat) : Int) - (pk.blue : Int)) ^ 2
        < ((((rgba 1 1 1 255) % 256 : Nat) : Int) - (pj.red : Int)) ^ 2
          + ((((rgba 1 1 1 255) / 2 ^ 8 % 256 : Nat) : Int) - (pj.green : Int)) ^ 2
          + ((((rgba 1 1 1 255) / 2 ^ 16 % 256 : Nat) : Int) - (pj.blue : Int)) ^ 2) ∧
      (∀ j pj, (if (solidA 1 1 1).hasAlphaChannel = true then 1 else 0) ≤ j →
        palEqui.get? j = some pj →
        ((((rgba 1 1 1 255) % 256 : Nat) : Int) - (pj.red : Int)) ^ 2
          + ((((rgba 1 1 1 255) / 2 ^ 8 % 256 : Nat) : Int) - (pj.green : Int)) ^ 2
          + ((((rgba 1 1 1 255) / 2 ^ 16 % 256 : Nat) : Int) - (pj.blue : Int)) ^ 2
        = ((((rgba 1 1 1 255) % 256 : Nat) : Int) - (pk.red : Int)) ^ 2
          + ((((rgba 1 1 1 255) / 2 ^ 8 % 256 : Nat) : Int) - (pk.green : Int)) ^ 2
          + ((((rgba 1 1 1 255) / 2 ^ 16 % 256 : Nat) : Int) - (pk.blue : Int)) ^ 2 →
        k ≤ j)) ∧
    (palDup.length ≤ 256 ∧
      pal_wf palDup ∧
      (solid1 255 0 0).wf ∧
      0 < (solid1 255 0 0).h ∧
      0 < (solid1 255 0 0).w ∧
      (solid1 255 0 0).pixels.get? (0 * (solid1 255 0 0).w + 0) = some (rgba 255 0 0 255) ∧
      ¬ ((solid1 255 0 0).hasAlphaChannel = true ∧ (rgba 255 0 0 255) / 2 ^ 24 % 256 = 0) ∧
      (if (solid1 255 0 0).hasAlphaChannel = true then 1 else 0) < palDup.length) ∧
    (∃ k pk, sampleAt (saveIndexedPNG palDup (solid1 255 0 0)) 0 0 = some k ∧
      (if (solid1 255 0 0).hasAlphaChannel = true then 1 else 0) ≤ k ∧ k < palDup.length ∧
      palDup.get? k = some pk ∧
      (∀ j pj, (if (solid1 255 0 0).hasAlphaChannel = true then 1 else 0) ≤ j → j < k →
        palDup.get? j = some pj →
        ((((rgba 255 0 0 255) % 256 : Nat) : Int) - (pk.red : Int)) ^ 2
          + ((((rgba 255 0 0 255) / 2 ^ 8 % 256 : Nat) : Int) - (pk.green : Int)) ^ 2
          + ((((rgba 255 0 0 255) / 2 ^ 16 % 256 : Nat) : Int) - (pk.blue : Int)) ^ 2
        < ((((rgba 255 0 0 255) % 256 : Nat) : Int) - (pj.red : Int)) ^ 2
          + ((((rgba 255 0 0 255) / 2 ^ 8 % 256 : Nat) : Int) - (pj.green : Int)) ^ 2
          + ((((rgba 255 0 0 255) / 2 ^ 16 % 256 : Nat) : Int) - (pj.blue : Int)) ^ 2) ∧
      (∀ j pj, (if (solid1 255 0 0).hasAlphaChannel = true then 1 else 0) ≤ j →
        palDup.get? j = some pj →
        ((((rgba 255 0 0 255) % 256 : Nat) : Int) - (pj.red : Int)) ^ 2
          + ((((rgba 255 0 0 255) / 2 ^ 8 % 256 : Nat) : Int) - (pj.green : Int)) ^ 2
          + ((((rgba 255 0 0 255) / 2 ^ 16 % 256 : Nat) : Int) - (pj.blue : Int)) ^ 2
        = ((((rgba 255 0 0 255) % 256 : Nat) : Int) - (pk.red : Int)) ^ 2
          + ((((rgba 255 0 0 255) / 2 ^ 8 % 256 : Nat) : Int) - (pk.green : Int)) ^ 2
          + ((((rgba 255 0 0 255) / 2 ^ 16 % 256 : Nat) : Int) - (pk.blue : Int)) ^ 2 →
        k ≤ j)) ∧
    sampleAt (saveIndexedPNG palEqui (solid1 1 1 1)) 0 0 = some 0 ∧
    sampleAt (saveIndexedPNG palEqui (solidA 1 1 1)) 0 0 = some 1 ∧
    sampleAt (saveIndexedPNG palDup (solid1 255 0 0)) 0 0 = some 1 ∧
    sampleAt (saveIndexedPNG palBlue (solid1 0 0 255)) 0 0 = some 0 ∧
    sampleAt (saveIndexedPNG [black, white] (solid1 127 127 127)) 0 0 = some 0 ∧
    sampleAt (saveIndexedPNG palBlue (solid1 0 0 0)) 0 0 = some 1 ∧
    sampleAt (saveIndexedPNG pal4 (solid1 0 255 0)) 0 0 = some 2 ∧
    sampleAt (saveIndexedPNG pal4 halfAlpha) 1 1 = some 1 ∧
    saveIndexedPNG pal4 halfAlpha = [[1, 0], [2, 1]] ∧
    rgba 1 1 1 255 = 1 + 1 * 2 ^ 8 + 1 * 2 ^ 16 + 255 * 2 ^ 24 ∧
    rgba 255 0 0 255 = 255 + 0 * 2 ^ 8 + 0 * 2 ^ 16 + 255 * 2 ^ 24 :=
  ⟨by decide,
   tie_lowest_index palEqui (solid1 1 1 1) 0 0 (rgba 1 1 1 255)
     (by decide) (by decide) (by decide) (by decide) (by decide) (by decide) (by decide) (by decide),
   by decide,
   tie_lowest_index palEqui (solidA 1 1 1) 0 0 (rgba 1 1 1 255)
     (by decide) (by decide) (by decide) (by decide) (by decide) (by decide) (by decide) (by decide),
   by decide,
   tie_lowest_index palDup (solid1 255 0 0) 0 0 (rgba 255 0 0 255)
     (by decide) (by decide) (by decide) (by decide) (by decide) (by decide) (by decide) (by decide),
   by decide, by decide, by decide, by decide, by decide, by decide, by decide, by decide,
   by decide, by decide, by decide⟩

/-- C10. Palette colours are fixed points of the quantizer.  For a pixel word
`c` that goes through the search: when `(c % 256, c / 2^8 % 256,
c / 2^16 % 256)` is the colour of some entry of the range `[lo, ncolors)`,
`lo` being 1 with an alpha channel and 0 without, the index `k` written
holds exactly that colour and is the lowest index of the range that does;
so a pixel rendered from an entry `j` of the range, the word with bytes
`pal[j].red`, `pal[j].green`, `pal[j].blue` and an alpha `a`, is written as
an index `k <= j` of the range with `pal[k] = pal[j]`.  Consequently, in an
image whose every pixel is rendered from an index of the range (with
non-zero alpha under an alpha channel), every pixel is again the rendering,
at its own alpha, of the index written for it: re-quantizing loses no
colour. -/
theorem palette_colour_fixed (pal : List png_color) (screen : Image32)
    (hn : pal.length ≤ 256) (hp : pal_wf pal) (hs : screen.wf) :
    (∀ y x c, y < screen.h → x < screen.w →
        screen.pixels.get? (y * screen.w + x) = some c →
        ¬ (screen.hasAlphaChannel = true ∧ c / 2 ^ 24 % 256 = 0) →
        ∃ k, sampleAt (saveIndexedPNG pal screen) y x = some k ∧
          ((∃ j, (if screen.hasAlphaChannel = true then 1 else 0) ≤ j ∧
              pal.get? j = some ⟨c % 256, c / 2 ^ 8 % 256, c / 2 ^ 16 % 256⟩) →
            (if screen.hasAlphaChannel = true then 1 else 0) ≤ k ∧ k < pal.length ∧
            pal.get? k = some ⟨c % 256, c / 2 ^ 8 % 256, c / 2 ^ 16 % 256⟩ ∧
            ∀ j, (if screen.hasAlphaChannel = true then 1 else 0) ≤ j →
              pal.get? j = some ⟨c % 256, c / 2 ^ 8 % 256, c / 2 ^ 16 % 256⟩ → k ≤ j) ∧
          (∀ j pj a, (if screen.hasAlphaChannel = true then 1 else 0) ≤ j →
            pal.get? j = some pj → a < 256 →
            c = pj.red + pj.green * 2 ^ 8 + pj.blue * 2 ^ 16 + a * 2 ^ 24 →
            (if screen.hasAlphaChannel = true then 1 else 0) ≤ k ∧ k ≤ j ∧ pal.get? k = some pj)) ∧
    ((∀ i, i < screen.w * screen.h → ∃ j pj a,
          (if screen.hasAlphaChannel = true then 1 else 0) ≤ j ∧ pal.get? j = some pj ∧
          a < 256 ∧ (screen.hasAlphaChannel = true → a ≠ 0) ∧
          screen.pixels.get? i
            = some (pj.red + pj.green * 2 ^ 8 + pj.blue * 2 ^ 16 + a * 2 ^ 24)) →
      ∀ y x, y < screen.h → x < screen.w → ∃ k pk a,
        sampleAt (saveIndexedPNG pal screen) y x = some k ∧
        (if screen.hasAlphaChannel = true then 1 else 0) ≤ k ∧ k < pal.length ∧
        pal.get? k = some pk ∧
        screen.pixels.get? (y * screen.w + x)
          = some (pk.red + pk.green * 2 ^ 8 + pk.blue * 2 ^ 16 + a * 2 ^ 24)) := by
  have pix : ∀ y x c, y < screen.h → x < screen.w →
      screen.pixels.get? (y * screen.w + x) = some c →
      ¬ (screen.hasAlphaChannel = true ∧ c / 2 ^ 24 % 256 = 0) →
      ∃ k, sampleAt (saveIndexedPNG pal screen) y x = some k ∧
        ((∃ j, (if screen.hasAlphaChannel = true then 1 else 0) ≤ j ∧
            pal.get? j = some ⟨c % 256, c / 2 ^ 8 % 256, c / 2 ^ 16 % 256⟩) →
          (if screen.hasAlphaChannel = true then 1 else 0) ≤ k ∧ k < pal.length ∧
          pal.get? k = some ⟨c % 256, c / 2 ^ 8 % 256, c / 2 ^ 16 % 256⟩ ∧
          ∀ j, (if screen.hasAlphaChannel = true then 1 else 0) ≤ j →
            pal.get? j = some ⟨c % 256, c / 2 ^ 8 % 256, c / 2 ^ 16 % 256⟩ → k ≤ j) ∧
        (∀ j pj a, (if screen.hasAlphaChannel = true then 1 else 0) ≤ j →
          pal.get? j = some pj → a < 256 →
          c = pj.red + pj.green * 2 ^ 8 + pj.blue * 2 ^ 16 + a * 2 ^ 24 →
          (if screen.hasAlphaChannel = true then 1 else 0) ≤ k ∧ k ≤ j ∧ pal.get? k = some pj) := by
    intro y x c hy hx hc hsearch
    have hsearch2 : ¬ (screen.hasAlphaChannel = true ∧ chanA c = 0) := by
      rw [chanA_eq]
      exact hsearch
    have key : (∃ j, (if screen.hasAlphaChannel = true then 1 else 0) ≤ j ∧
          pal.get? j = some ⟨c % 256, c / 2 ^ 8 % 256, c / 2 ^ 16 % 256⟩) →
        (if screen.hasAlphaChannel = true then 1 else 0) ≤ nearestIndex pal screen.hasAlphaChannel c ∧
        nearestIndex pal screen.hasAlphaChannel c < pal.length ∧
        pal.get? (nearestIndex pal screen.hasAlphaChannel c)
          = some ⟨c % 256, c / 2 ^ 8 % 256, c / 2 ^ 16 % 256⟩ ∧
        ∀ j, (if screen.hasAlphaChannel = true then 1 else 0) ≤ j →
          pal.get? j = some ⟨c % 256, c / 2 ^ 8 % 256, c / 2 ^ 16 % 256⟩ →
          nearestIndex pal screen.hasAlphaChannel c ≤ j := by
      rintro ⟨j0, hj1, hj⟩
      rw [← searchLo_eq] at hj1 ⊢
      obtain ⟨a1, a2, a3, a4⟩ := nearestIndex_fixed pal screen.hasAlphaChannel c hn hp hsearch2
        j0 hj1 (lt_of_get pal j0 _ hj)
        (by rw [palAt_of_get pal j0 _ hj, chanR_eq, chanG_eq, chanB_eq])
      refine ⟨a1, a2, ?_, ?_⟩
      · rw [get_of_lt pal _ a2, a3, chanR_eq, chanG_eq, chanB_eq]
      · intro j hl hj2
        exact a4 j hl (by rw [palAt_of_get pal j _ hj2, chanR_eq, chanG_eq, chanB_eq])
    refine ⟨_, saveIndexedPNG_at pal screen hs y x c hy hx hc, key, ?_⟩
    intro j pj a hj1 hj ha hword
    obtain ⟨b1, b2, b3⟩ := hp pj (mem_of_get pal j pj hj)
    obtain ⟨w1, w2, w3, _⟩ := word_bytes pj.red pj.green pj.blue a b1 b2 b3 ha
    have hrgb : (⟨c % 256, c / 2 ^ 8 % 256, c / 2 ^ 16 % 256⟩ : png_color) = pj := by
      rw [hword, w1, w2, w3]
    rw [hrgb] at key
    obtain ⟨k1, _, k3, k4⟩ := key ⟨j, hj1, hj⟩
    exact ⟨k1, k4 j hj1 hj, k3⟩
  refine ⟨pix, ?_⟩
  intro hrend y x hy hx
  obtain ⟨j, pj, a, hj1, hj, ha, hnz, hget⟩ := hrend (y * screen.w + x) (index_lt screen y x hy hx)
  obtain ⟨b1, b2, b3⟩ := hp pj (mem_of_get pal j pj hj)
  obtain ⟨_, _, _, w4⟩ := word_bytes pj.red pj.green pj.blue a b1 b2 b3 ha
  have hsearch : ¬ (screen.hasAlphaChannel = true ∧
      (pj.red + pj.green * 2 ^ 8 + pj.blue * 2 ^ 16 + a * 2 ^ 24) / 2 ^ 24 % 256 = 0) := by
    rw [w4]
    rintro ⟨h1, h2⟩
    exact hnz h1 h2
  obtain ⟨k, hk, _, hB⟩ := pix y x _ hy hx hget hsearch
  obtain ⟨k1, k2, k3⟩ := hB j pj a hj1 hj ha rfl
  exact ⟨k, pj, a, hk, k1, lt_of_get pal k pj k3, k3, hget⟩

/-- C10 on an image rendered from the indices 1, 3, 2, 1 of `pal4`, which is
quantized back to 1, 3, 2, 1, and on a black pixel of alpha 255 under an
alpha channel with a palette whose entries 0 and 2 are black, which is
written as 2, the lowest index of the range from 1; on a palette with a
duplicated red a red pixel is written as 1. -/
theorem palette_colour_fixed_witness :
    (pal4.length ≤ 256 ∧ pal_wf pal4 ∧ rendered.wf) ∧
    ((∀ y x c, y < rendered.h → x < rendered.w →
        rendered.pixels.get? (y * rendered.w + x) = some c →
        ¬ (rendered.hasAlphaChannel = true ∧ c / 2 ^ 24 % 256 = 0) →
        ∃ k, sampleAt (saveIndexedPNG pal4 rendered) y x = some k ∧
          ((∃ j, (if rendered.hasAlphaChannel = true then 1 else 0) ≤ j ∧
              pal4.get? j = some ⟨c % 256, c / 2 ^ 8 % 256, c / 2 ^ 16 % 256⟩) →
            (if rendered.hasAlphaChannel = true then 1 else 0) ≤ k ∧ k < pal4.length ∧
            pal4.get? k = some ⟨c % 256, c / 2 ^ 8 % 256, c / 2 ^ 16 % 256⟩ ∧
            ∀ j, (if rendered.hasAlphaChannel = true then 1 else 0) ≤ j →
              pal4.get? j = some ⟨c % 256, c / 2 ^ 8 % 256, c / 2 ^ 16 % 256⟩ → k ≤ j) ∧
          (∀ j pj a, (if rendered.hasAlphaChannel = true then 1 else 0) ≤ j →
            pal4.get? j = some pj → a < 256 →
            c = pj.red + pj.green * 2 ^ 8 + pj.blue * 2 ^ 16 + a * 2 ^ 24 →
            (if rendered.hasAlphaChannel = true then 1 else 0) ≤ k ∧ k ≤ j ∧ pal4.get? k = some pj)) ∧
    ((∀ i, i < rendered.w * rendered.h → ∃ j pj a,
          (if rendered.hasAlphaChannel = true then 1 else 0) ≤ j ∧ pal4.get? j = some pj ∧
          a < 256 ∧ (rendered.hasAlphaChannel = true → a ≠ 0) ∧
          rendered.pixels.get? i
            = some (pj.red + pj.green * 2 ^ 8 + pj.blue * 2 ^ 16 + a * 2 ^ 24)) →
      ∀ y x, y < rendered.h → x < rendered.w → ∃ k pk a,
        sampleAt (saveIndexedPNG pal4 rendered) y x = some k ∧
        (if rendered.hasAlphaChannel = true then 1 else 0) ≤ k ∧ k < pal4.length ∧
        pal4.get? k = some pk ∧
        rendered.pixels.get? (y * rendered.w + x)
          = some (pk.red + pk.green * 2 ^ 8 + pk.blue * 2 ^ 16 + a * 2 ^ 24))) ∧
    (palBlack2.length ≤ 256 ∧ pal_wf palBlack2 ∧ (solidA 0 0 0).wf) ∧
    ((∀ y x c, y < (solidA 0 0 0).h → x < (solidA 0 0 0).w →
        (solidA 0 0 0).pixels.get? (y * (solidA 0 0 0).w + x) = some c →
        ¬ ((solidA 0 0 0).hasAlphaChannel = true ∧ c / 2 ^ 24 % 256 = 0) →
        ∃ k, sampleAt (saveIndexedPNG palBlack2 (solidA 0 0 0)) y x = some k ∧
          ((∃ j, (if (solidA 0 0 0).hasAlphaChannel = true then 1 else 0) ≤ j ∧
              palBlack2.get? j = some ⟨c % 256, c / 2 ^ 8 % 256, c / 2 ^ 16 % 256⟩) →
            (if (solidA 0 0 0).hasAlphaChannel = true then 1 else 0) ≤ k ∧ k < palBlack2.length ∧
            palBlack2.get? k = some ⟨c % 256, c / 2 ^ 8 % 256, c / 2 ^ 16 % 256⟩ ∧
            ∀ j, (if (solidA 0 0 0).hasAlphaChannel = true then 1 else 0) ≤ j →
              palBlack2.get? j = some ⟨c % 256, c / 2 ^ 8 % 256, c / 2 ^ 16 % 256⟩ → k ≤ j) ∧
          (∀ j pj a, (if (solidA 0 0 0).hasAlphaChannel = true then 1 else 0) ≤ j →
            palBlack2.get? j = some pj → a < 256 →
            c = pj.red + pj.green * 2 ^ 8 + pj.blue * 2 ^ 16 + a * 2 ^ 24 →
            (if (solidA 0 0 0).hasAlphaChannel = true then 1 else 0) ≤ k ∧ k ≤ j ∧ palBlack2.get? k = some pj)) ∧
    ((∀ i, i < (solidA 0 0 0).w * (solidA 0 0 0).h → ∃ j pj a,
          (if (solidA 0 0 0).hasAlphaChannel = true then 1 else 0) ≤ j ∧ palBlack2.get? j = some pj ∧
          a < 256 ∧ ((solidA 0 0 0).hasAlphaChannel = true → a ≠ 0) ∧
          (solidA 0 0 0).pixels.get? i
            = some (pj.red + pj.green * 2 ^ 8 + pj.blue * 2 ^ 16 + a * 2 ^ 24)) →
      ∀ y x, y < (solidA 0 0 0).h → x < (solidA 0 0 0).w → ∃ k pk a,
        sampleAt (saveIndexedPNG palBlack2 (solidA 0 0 0)) y x = some k ∧
        (if (solidA 0 0 0).hasAlphaChannel = true then 1 else 0) ≤ k ∧ k < palBlack2.length ∧
        palBlack2.get? k = some pk ∧
        (solidA 0 0 0).pixels.get? (y * (solidA 0 0 0).w + x)
          = some (pk.red + pk.green * 2 ^ 8 + pk.blue * 2 ^ 16 + a * 2 ^ 24))) ∧
    (∀ i, i < rendered.w * rendered.h → ∃ j pj a,
      (if rendered.hasAlphaChannel = true then 1 else 0) ≤ j ∧ pal4.get? j = some pj ∧
      a < 256 ∧ (rendered.hasAlphaChannel = true → a ≠ 0) ∧
      rendered.pixels.get? i
        = some (pj.red + pj.green * 2 ^ 8 + pj.blue * 2 ^ 16 + a * 2 ^ 24)) ∧
    (∀ y x, y < rendered.h → x < rendered.w → ∃ k pk a,
      sampleAt (saveIndexedPNG pal4 rendered) y x = some k ∧
      (if rendered.hasAlphaChannel = true then 1 else 0) ≤ k ∧ k < pal4.length ∧
      pal4.get? k = some pk ∧
      rendered.pixels.get? (y * rendered.w + x)
        = some (pk.red + pk.green * 2 ^ 8 + pk.blue * 2 ^ 16 + a * 2 ^ 24)) ∧
    saveIndexedPNG pal4 rendered = [[1, 3], [2, 1]] ∧
    sampleAt (saveIndexedPNG pal4 rendered) 1 0 = some 2 ∧
    pal4.get? 2 = some ⟨0, 255, 0⟩ ∧
    rendered.pixels.get? (1 * rendered.w + 0) = some (0 + 255 * 2 ^ 8 + 0 * 2 ^ 16 + 255 * 2 ^ 24) ∧
    rendered.pixels = [255 + 0 * 2 ^ 8 + 0 * 2 ^ 16 + 255 * 2 ^ 24,
      255 + 255 * 2 ^ 8 + 255 * 2 ^ 16 + 255 * 2 ^ 24,
      0 + 255 * 2 ^ 8 + 0 * 2 ^ 16 + 255 * 2 ^ 24,
      255 + 0 * 2 ^ 8 + 0 * 2 ^ 16 + 255 * 2 ^ 24] ∧
    pal4 = [⟨0, 0, 0⟩, ⟨255, 0, 0⟩, ⟨0, 255, 0⟩, ⟨255, 255, 255⟩] ∧
    sampleAt (saveIndexedPNG palBlack2 (solidA 0 0 0)) 0 0 = some 2 ∧
    palBlack2.get? 2 = some ⟨0, 0, 0⟩ ∧
    (solidA 0 0 0).pixels = [0 + 0 * 2 ^ 8 + 0 * 2 ^ 16 + 255 * 2 ^ 24] ∧
    sampleAt (saveIndexedPNG palDup (solid1 255 0 0)) 0 0 = some 1 ∧
    palDup.get? 1 = some ⟨255, 0, 0⟩ ∧
    sampleAt (saveIndexedPNG pal4 (solidA 0 0 255)) 0 0 = some 1 :=
  have hR : (∀ i, i < rendered.w * rendered.h → ∃ j pj a,
        (if rendered.hasAlphaChannel = true then 1 else 0) ≤ j ∧ pal4.get? j = some pj ∧
        a < 256 ∧ (rendered.hasAlphaChannel = true → a ≠ 0) ∧
        rendered.pixels.get? i
          = some (pj.red + pj.green * 2 ^ 8 + pj.blue * 2 ^ 16 + a * 2 ^ 24)) := by
    intro i hi
    have hi4 : i < 4 := hi
    interval_cases i
    · exact ⟨1, ⟨255, 0, 0⟩, 255, by decide, by decide, by decide, by decide, by decide⟩
    · exact ⟨3, ⟨255, 255, 255⟩, 255, by decide, by decide, by decide, by decide, by decide⟩
    · exact ⟨2, ⟨0, 255, 0⟩, 255, by decide, by decide, by decide, by decide, by decide⟩
    · exact ⟨1, ⟨255, 0, 0⟩, 255, by decide, by decide, by decide, by decide, by decide⟩
  ⟨by decide,
   palette_colour_fixed pal4 rendered (by decide) (by decide) (by decide),
   by decide,
   palette_colour_fixed palBlack2 (solidA 0 0 0) (by decide) (by decide) (by decide),
   hR,
   (palette_colour_fixed pal4 rendered (by decide) (by decide) (by decide)).2 hR,
   by decide, by decide, by decide, by decide, by decide, by decide, by decide, by decide,
   by decide, by decide, by decide, by decide⟩

/-- The loops of `needsmask` visit exactly the pairs row, column. -/
theorem needsmask_iff_rows (img : Image32) :
    needsmask img = true ↔ ∃ y, y < img.h ∧ ∃ x, x < img.w ∧
      chanA (peek img.pixels ((y * img.w) % 2 ^ 32 + x)) ≠ 0 ∧
      chanA (peek img.pixels ((y * img.w) % 2 ^ 32 + x)) ≠ 255 := by
  unfold needsmask
  simp [List.any_eq_true, List.mem_range]

/-- C5. The function `needsmask` returns true exactly when some pixel among
the `w * h` has an alpha byte strictly between 0 and 255. -/
theorem needsmask_iff (img : Image32) (hs : img.wf) :
    needsmask img = true ↔
      ∃ i, i < img.w * img.h ∧ 0 < chanA (peek img.pixels i) ∧ chanA (peek img.pixels i) < 255 := by
  rw [needsmask_iff_rows]
  constructor
  · rintro ⟨y, hy, x, hx, h1, h2⟩
    rw [row_offset img hs y hy] at h1 h2
    refine ⟨y * img.w + x, ?_, Nat.pos_of_ne_zero h1, ?_⟩
    · have h3 : (y + 1) * img.w ≤ img.h * img.w := Nat.mul_le_mul_right _ hy
      rw [Nat.add_mul, Nat.one_mul, Nat.mul_comm img.h img.w] at h3
      omega
    · have := chanA_lt (peek img.pixels (y * img.w + x))
      omega
  · rintro ⟨i, hi, h1, h2⟩
    have hw : 0 < img.w := by
      rcases Nat.eq_zero_or_pos img.w with h0 | h0
      · rw [h0, Nat.zero_mul] at hi
        omega
      · exact h0
    have hy : i / img.w < img.h := Nat.div_lt_of_lt_mul hi
    have hidx : i / img.w * img.w + i % img.w = i := by
      rw [Nat.mul_comm]
      exact Nat.div_add_mod i img.w
    refine ⟨i / img.w, hy, i % img.w, Nat.mod_lt _ hw, ?_, ?_⟩
    · rw [row_offset img hs _ hy, hidx]
      omega
    · rw [row_offset img hs _ hy, hidx]
      omega

/-- C5 on three images: binary alpha gives false; one pixel of alpha 128
gives true, in the last row as well as in the first position. -/
theorem needsmask_iff_witness :
    (scenario.wf ∧ halfAlpha.wf ∧ noChannel.wf) ∧
    (needsmask halfAlpha = true ↔
      ∃ i, i < halfAlpha.w * halfAlpha.h ∧ 0 < chanA (peek halfAlpha.pixels i) ∧
        chanA (peek halfAlpha.pixels i) < 255) ∧
    (needsmask scenario = true ↔
      ∃ i, i < scenario.w * scenario.h ∧ 0 < chanA (peek scenario.pixels i) ∧
        chanA (peek scenario.pixels i) < 255) ∧
    needsmask scenario = false ∧
    needsmask halfAlpha = true ∧ chanA (peek halfAlpha.pixels 2) = 128 ∧
    needsmask noChannel = true ∧ chanA (peek noChannel.pixels 0) = 128 :=
  ⟨by decide, needsmask_iff halfAlpha (by decide), needsmask_iff scenario (by decide),
   by decide, by decide, by decide, by decide, by decide⟩

/-- C6. The mask is the alpha channel verbatim: `saveMask` emits `h` rows of
`w` samples, and the sample at row `y`, column `x` is bits 24..31 of source
pixel `y * w + x`. -/
theorem mask_is_alpha (screen : Image32) (hs : screen.wf) :
    (saveMask screen).length = screen.h ∧
    (∀ row ∈ saveMask screen, row.length = screen.w) ∧
    ∀ y x, y < screen.h → x < screen.w →
      sampleAt (saveMask screen) y x = some (peek screen.pixels (y * screen.w + x) / 2 ^ 24 % 256) := by
  refine ⟨?_, ?_, ?_⟩
  · rw [saveMask_eq]
    simp
  · rw [saveMask_eq]
    intro row hrow
    rw [List.mem_map] at hrow
    obtain ⟨y, _, rfl⟩ := hrow
    simp
  · intro y x hy hx
    rw [saveMask_sample screen hs y x hy hx, chanA_eq]

/-- C6 on an image with a half-transparent pixel and on one recorded as
having no alpha channel: both masks are the alpha bytes. -/
theorem mask_is_alpha_witness :
    (halfAlpha.wf ∧ noChannel.wf) ∧
    ((saveMask halfAlpha).length = halfAlpha.h ∧
      (∀ row ∈ saveMask halfAlpha, row.length = halfAlpha.w) ∧
      ∀ y x, y < halfAlpha.h → x < halfAlpha.w →
        sampleAt (saveMask halfAlpha) y x
          = some (peek halfAlpha.pixels (y * halfAlpha.w + x) / 2 ^ 24 % 256)) ∧
    saveMask halfAlpha = [[255, 0], [128, 255]] ∧
    sampleAt (saveMask halfAlpha) 1 0 = some 128 ∧
    saveMask noChannel = [[128, 255]] ∧
    saveMask scenario = [[255, 0]] ∧ needsmask scenario = false :=
  ⟨by decide, mask_is_alpha halfAlpha (by decide),
   by decide, by decide, by decide, by decide, by decide⟩

/-- C7. Mask decision of `main`: when the palette load, the source decode
and the indexed write succeed, `saveMask` is called exactly when the image
has `hasAlphaChannel` set and `needsmask` returns true; without
`hasAlphaChannel` neither `needsmask` nor `saveMask` is called and only the
indexed raster is written. -/
theorem mask_decision (argv : List String) (env : Env) (pal : List png_color)
    (src : PngSource)
    (hargc : argv.length = 4 ∨ argv.length = 5)
    (hpal : env.palette (argvAt argv 1) = some pal)
    (hsrc : env.source (argvAt argv 2) = some src)
    (hw : env.writable (argvAt argv 3) = true) :
    ((∃ p, Call.saveMask p ∈ (main argv env).calls) ↔
      ((readSourcePNG src).hasAlphaChannel = true ∧ needsmask (readSourcePNG src) = true)) ∧
    ((readSourcePNG src).hasAlphaChannel = false →
      Call.needsmask ∉ (main argv env).calls ∧
      (∀ p, Call.saveMask p ∉ (main argv env).calls) ∧
      (main argv env).written = [(argvAt argv 3, saveIndexedPNG pal (readSourcePNG src))]) := by
  have hc : (argv.length != 4 && argv.length != 5) = false := by
    rcases hargc with h | h <;> simp [h]
  unfold main
  simp only [hc, hpal, hsrc, hw]
  cases ha : (readSourcePNG src).hasAlphaChannel <;>
    cases hm : needsmask (readSourcePNG src) <;>
    cases hm4 : env.writable (argvAt argv 4) <;>
    simp

/-- C7 on two runs with a mask path: an indexed source with tRNS, recorded
without alpha channel although a pixel has alpha 128, gets no mask; a
truecolor-with-alpha source with such a pixel gets one. -/
theorem mask_decision_witness :
    ((argv5.length = 4 ∨ argv5.length = 5) ∧
      (world indexedTrns).palette (argvAt argv5 1) = some pal4 ∧
      (world indexedTrns).source (argvAt argv5 2) = some indexedTrns ∧
      (world indexedTrns).writable (argvAt argv5 3) = true) ∧
    (((∃ p, Call.saveMask p ∈ (main argv5 (world indexedTrns)).calls) ↔
        ((readSourcePNG indexedTrns).hasAlphaChannel = true ∧
          needsmask (readSourcePNG indexedTrns) = true)) ∧
      ((readSourcePNG indexedTrns).hasAlphaChannel = false →
        Call.needsmask ∉ (main argv5 (world indexedTrns)).calls ∧
        (∀ p, Call.saveMask p ∉ (main argv5 (world indexedTrns)).calls) ∧
        (main argv5 (world indexedTrns)).written
          = [(argvAt argv5 3, saveIndexedPNG pal4 (readSourcePNG indexedTrns))])) ∧
    (((∃ p, Call.saveMask p ∈ (main argv5 (world rgbaSource)).calls) ↔
        ((readSourcePNG rgbaSource).hasAlphaChannel = true ∧
          needsmask (readSourcePNG rgbaSource) = true)) ∧
      ((readSourcePNG rgbaSource).hasAlphaChannel = false →
        Call.needsmask ∉ (main argv5 (world rgbaSource)).calls ∧
        (∀ p, Call.saveMask p ∉ (main argv5 (world rgbaSource)).calls) ∧
        (main argv5 (world rgbaSource)).written
          = [(argvAt argv5 3, saveIndexedPNG pal4 (readSourcePNG rgbaSource))])) ∧
    (readSourcePNG indexedTrns).hasAlphaChannel = false ∧
    chanA (peek (readSourcePNG indexedTrns).pixels 0) = 128 ∧
    (main argv5 (world indexedTrns)).calls
      = [Call.readPal (some "pal.png"), Call.readSourcePNG (some "src.png"),
         Call.saveIndexedPNG (some "out.png")] ∧
    (main argv5 (world indexedTrns)).status = 0 ∧
    (main argv5 (world rgbaSource)).calls
      = [Call.readPal (some "pal.png"), Call.readSourcePNG (some "src.png"),
         Call.saveIndexedPNG (some "out.png"), Call.needsmask,
         Call.saveMask (some "mask.png")] ∧
    (main argv5 (world rgbaSource)).written
      = [(some "out.png", [[1, 0], [2, 1]]), (some "mask.png", [[255, 0], [128, 255]])] :=
  ⟨⟨by decide, rfl, rfl, rfl⟩,
   mask_decision argv5 (world indexedTrns) pal4 indexedTrns (by decide) rfl rfl rfl,
   mask_decision argv5 (world rgbaSource) pal4 rgbaSource (by decide) rfl rfl rfl,
   by decide, by decide, by decide, by decide, by decide, by decide⟩

/-- C8. The flag `hasAlphaChannel` follows the alpha bit of the colour type
alone.  On an indexed source with a tRNS chunk `readSourcePNG` asks for the
expansion of tRNS into alpha, the pixels it stores carry the alpha bytes 128
and 0, and the flag is false. -/
theorem hasAlphaChannel_ignores_tRNS :
    (∀ src : PngSource, (readSourcePNG src).hasAlphaChannel = true ↔
      src.color_type &&& PNG_COLOR_MASK_ALPHA ≠ 0) ∧
    indexedTrns.color_type = PNG_COLOR_TYPE_PALETTE ∧
    indexedTrns.color_type &&& PNG_COLOR_MASK_ALPHA = 0 ∧
    indexedTrns.tRNS = true ∧
    Transform.tRNS_to_alpha ∈ readSourcePNG_transforms indexedTrns ∧
    (readSourcePNG indexedTrns).pixels = [rgba 255 0 0 128, rgba 0 0 0 0] ∧
    chanA (peek (readSourcePNG indexedTrns).pixels 0) = 128 ∧
    chanA (peek (readSourcePNG indexedTrns).pixels 1) = 0 ∧
    (readSourcePNG indexedTrns).hasAlphaChannel = false := by
  refine ⟨?_, by decide, by decide, by decide, by decide, by decide, by decide, by decide,
    by decide⟩
  intro src
  unfold readSourcePNG
  simp

/-- C9. With three path arguments and a source that has an alpha channel and
a pixel of alpha 128, `main` reads `argv[4]`, the null pointer at
`argv[argc]`, and calls `saveMask` with it; the run ends with status 1. -/
theorem omitted_mask_path_is_read :
    argv4.length = 4 ∧ argvAt argv4 4 = none ∧
    (readSourcePNG rgbaSource).hasAlphaChannel = true ∧
    needsmask (readSourcePNG rgbaSource) = true ∧
    (main argv4 (world rgbaSource)).calls
      = [Call.readPal (some "pal.png"), Call.readSourcePNG (some "src.png"),
         Call.saveIndexedPNG (some "out.png"), Call.needsmask, Call.saveMask none] ∧
    Call.saveMask (argvAt argv4 4) ∈ (main argv4 (world rgbaSource)).calls ∧
    (main argv4 (world rgbaSource)).status = 1 := by
  decide

/-! ## Further properties -/

/-- The indexed raster has the dimensions of the source: `h` rows of `w`
indices. -/
theorem indexed_dimensions (pal : List png_color) (screen : Image32) :
    (saveIndexedPNG pal screen).length = screen.h ∧
    ∀ row ∈ saveIndexedPNG pal screen, row.length = screen.w := by
  rw [saveIndexedPNG_eq]
  refine ⟨by simp, ?_⟩
  intro row hrow
  rw [List.mem_map] at hrow
  obtain ⟨y, _, rfl⟩ := hrow
  simp

/-- The value of `dist_sq` stays within `0 .. 3 * 255 * 255`, so the `int`
arithmetic of lines 249-252 never overflows and the initial
`nearest_dist_sq` is never reached. -/
theorem dist_sq_in_range (pal : List png_color) (hp : pal_wf pal) (color j : Nat) :
    0 ≤ dist_sq pal (chanR color) (chanG color) (chanB color) j ∧
    dist_sq pal (chanR color) (chanG color) (chanB color) j ≤ 3 * 255 * 255 ∧
    (3 * 255 * 255 : Int) < 9999999 ∧ (9999999 : Int) < 2 ^ 31 :=
  ⟨dist_sq_nonneg pal _ _ _ j,
   dist_sq_le pal hp _ _ _ j (chanR_lt color) (chanG_lt color) (chanB_lt color),
   by decide, by decide⟩

/-- The distance bound on the four-colour palette: a black pixel is at the
largest possible distance from white. -/
theorem dist_sq_in_range_witness :
    pal_wf pal4 ∧
    (0 ≤ dist_sq pal4 (chanR (rgba 0 0 0 255)) (chanG (rgba 0 0 0 255))
        (chanB (rgba 0 0 0 255)) 3 ∧
      dist_sq pal4 (chanR (rgba 0 0 0 255)) (chanG (rgba 0 0 0 255))
        (chanB (rgba 0 0 0 255)) 3 ≤ 3 * 255 * 255 ∧
      (3 * 255 * 255 : Int) < 9999999 ∧ (9999999 : Int) < 2 ^ 31) ∧
    dist_sq pal4 (chanR (rgba 0 0 0 255)) (chanG (rgba 0 0 0 255))
      (chanB (rgba 0 0 0 255)) 3 = 195075 :=
  ⟨by decide, dist_sq_in_range pal4 (by decide) (rgba 0 0 0 255) 3, by decide⟩

/-- Extent of the index bound: every index written is below `pal_ncolors`
except on a palette of one colour under an alpha channel, where each pixel
of non-zero alpha is written as 1. -/
theorem index_bound_extent (pal : List png_color) (screen : Image32) (y x : Nat)
    (hn1 : 1 ≤ pal.length) (hn : pal.length ≤ 256) (hp : pal_wf pal) (hs : screen.wf)
    (hy : y < screen.h) (hx : x < screen.w) :
    ∃ k, sampleAt (saveIndexedPNG pal screen) y x = some k ∧
      (k < pal.length ∨
        (screen.hasAlphaChannel = true ∧ pal.length = 1 ∧
          peek screen.pixels (y * screen.w + x) / 2 ^ 24 % 256 ≠ 0 ∧ k = 1)) := by
  refine ⟨_, saveIndexedPNG_sample pal screen hs y x hy hx, ?_⟩
  rw [← chanA_eq]
  by_cases hsearch : screen.hasAlphaChannel = true ∧
      chanA (peek screen.pixels (y * screen.w + x)) = 0
  · left
    have h0 : nearestIndex pal screen.hasAlphaChannel
        (peek screen.pixels (y * screen.w + x)) = 0 := by
      unfold nearestIndex
      simp [hsearch.1, hsearch.2]
    omega
  · by_cases hrange : searchLo screen.hasAlphaChannel < pal.length
    · left
      exact (nearestIndex_spec pal screen.hasAlphaChannel _ hn hp hsearch hrange).2.1
    · right
      cases ha : screen.hasAlphaChannel with
      | false =>
        rw [ha] at hrange
        have : searchLo false = 0 := rfl
        omega
      | true =>
        rw [ha] at hrange hsearch
        have hlo : searchLo true = 1 := rfl
        have hlen : pal.length = 1 := by omega
        refine ⟨rfl, hlen, ?_, ?_⟩
        · intro hz
          exact hsearch ⟨rfl, hz⟩
        · rw [nearestIndex_search pal true _ hsearch]
          unfold searchLoop
          rw [hlo, hlen]
          rfl

/-- The extent of the index bound on the scenario raster, where it holds,
and on the one-colour palette, where index 1 is written. -/
theorem index_bound_extent_witness :
    (1 ≤ pal1.length ∧ pal1.length ≤ 256 ∧ pal_wf pal1 ∧ solidAlpha1.wf ∧
      0 < solidAlpha1.h ∧ 0 < solidAlpha1.w) ∧
    (∃ k, sampleAt (saveIndexedPNG pal1 solidAlpha1) 0 0 = some k ∧
      (k < pal1.length ∨
        (solidAlpha1.hasAlphaChannel = true ∧ pal1.length = 1 ∧
          peek solidAlpha1.pixels (0 * solidAlpha1.w + 0) / 2 ^ 24 % 256 ≠ 0 ∧ k = 1))) ∧
    (∃ k, sampleAt (saveIndexedPNG pal4 scenario) 0 0 = some k ∧
      (k < pal4.length ∨
        (scenario.hasAlphaChannel = true ∧ pal4.length = 1 ∧
          peek scenario.pixels (0 * scenario.w + 0) / 2 ^ 24 % 256 ≠ 0 ∧ k = 1))) :=
  ⟨by decide,
   index_bound_extent pal1 solidAlpha1 0 0 (by decide) (by decide) (by decide) (by decide)
     (by decide) (by decide),
   index_bound_extent pal4 scenario 0 0 (by decide) (by decide) (by decide) (by decide)
     (by decide) (by decide)⟩

/-- A command line with neither three nor four paths ends with status 1
before any file is touched. -/
theorem usage_error (argv : List String) (env : Env)
    (h4 : argv.length ≠ 4) (h5 : argv.length ≠ 5) :
    main argv env = ⟨1, [], []⟩ := by
  unfold main
  simp [h4, h5]

/-- The usage error on a command line with two paths. -/
theorem usage_error_witness :
    (["spritebuddy", "pal.png", "src.png"].length ≠ 4 ∧
      ["spritebuddy", "pal.png", "src.png"].length ≠ 5) ∧
    main ["spritebuddy", "pal.png", "src.png"] (world rgbaSource) = ⟨1, [], []⟩ :=
  ⟨by decide, usage_error _ _ (by decide) (by decide)⟩

end SpriteBuddy
